import Mathlib

/-!
Verification development for the libnunchuk persistence and chain
synchronization core.  The C++ source is shallowly embedded: every SQLite
table becomes a Lean list of row structures, every member function becomes a
pure Lean function from state to state (returning the same results the C++
function returns), and SQLite statement semantics are modelled explicitly.

A central modelling note on sqlite3_changes: for an UPDATE statement SQLite
counts every row matched by the WHERE clause, even when the new value equals
the old one.  All boolean results of the form sqlite3_changes(db_) == 1 are
therefore modelled as (number of rows matched by the WHERE clause) == 1.
-/

/-- Blockchain network, from nunchuk.h (referenced by src). -/
inductive Chain
  | MAIN
  | TESTNET
  | REGTEST
deriving DecidableEq

/-- Wallet kind, from nunchuk.h (referenced by src). -/
inductive WalletType
  | SINGLE_SIG
  | MULTI_SIG
  | ESCROW
deriving DecidableEq

/-- Address kind, from nunchuk.h (referenced by src). -/
inductive AddressType
  | ANY
  | LEGACY
  | NESTED_SEGWIT
  | NATIVE_SEGWIT
deriving DecidableEq

/-- Transaction status, from nunchuk.h (referenced by src). -/
inductive TransactionStatus
  | PENDING_SIGNATURES
  | READY_TO_BROADCAST
  | NETWORK_REJECTED
  | PENDING_CONFIRMATION
  | REPLACED
  | CONFIRMED
deriving DecidableEq

/-- Error codes of StorageException and NunchukException used by the
embedded functions (storage.h / nunchuk.h). -/
inductive NunchukErr
  | INVALID_PARAMETER
  | INVALID_BIP32_PATH
  | SIGNER_USED
  | SIGNER_NOT_FOUND
  | SIGNER_EXISTS
  | WALLET_EXISTED
  | WALLET_NOT_FOUND
  | TX_NOT_FOUND
  | ADDRESS_NOT_FOUND
deriving DecidableEq

/-- Modelled from the spec (section 4.1): BIP32 derivation paths.  The
implementation file utils/bip32.hpp is not under src (only its callers are).
The spec requires DerivePath to be a total function of
(chain, walletKind, addressKind, index), injective and strictly increasing in
the index per bucket, and ParseIndexFromPath to invert its index component
exactly; derived paths are therefore modelled as a structured value carrying
those four components, and free-form bookkeeping paths (such as the literal
path m cached by CacheMasterSignerXPub) as a custom string. -/
inductive Bip32Path
  | derived (chain : Chain) (wt : WalletType) (adt : AddressType) (index : Int)
  | custom (s : String)
deriving DecidableEq

/-- Modelled from the spec: GetBip32Path of utils/bip32.hpp (missing from
src), the canonical DerivePath function of spec section 4.1. -/
def GetBip32Path (chain : Chain) (wt : WalletType) (adt : AddressType)
    (index : Int) : Bip32Path :=
  Bip32Path.derived chain wt adt index

/-- Modelled from the spec: GetIndexFromPath of utils/bip32.hpp (missing from
src), the ParseIndexFromPath function of spec section 4.1; it inverts the
index component of a derived path exactly.  On a non-derived bookkeeping path
no index component exists and the model returns -1. -/
def GetIndexFromPath : Bip32Path → Int
  | Bip32Path.derived _ _ _ i => i
  | Bip32Path.custom _ => -1

/-- Modelled from the spec: GetBip32Type of utils/bip32.hpp (missing from
src).  Spec section 3 groups derived-key cache entries into buckets by
(wallet-kind, address-kind); the bucket tag is modelled as a string distinct
for every pair and distinct from the tag custom used for bookkeeping paths. -/
def GetBip32Type (wt : WalletType) (adt : AddressType) : String :=
  let w := match wt with
    | WalletType.SINGLE_SIG => "single"
    | WalletType.MULTI_SIG => "multi"
    | WalletType.ESCROW => "escrow"
  let a := match adt with
    | AddressType.ANY => "any"
    | AddressType.LEGACY => "legacy"
    | AddressType.NESTED_SEGWIT => "nested"
    | AddressType.NATIVE_SEGWIT => "native"
  w ++ "." ++ a

/-- Modelled from the spec: FormalizePath of descriptor.h (declared in src,
implementation missing from src) normalizes a path string to canonical form;
on the structured path model canonical forms are unique, so it is the
identity. -/
def FormalizePath (p : Bip32Path) : Bip32Path := p

/-- SingleSigner, from nunchuk.h (referenced by src): a signer slot
reference.  Field order follows the constructor
SingleSigner(name, xpub, public_key, derivation_path, master_fingerprint,
last_health_check, master_signer_id, used). -/
structure SingleSigner where
  name : String
  xpub : String
  publicKey : String
  derivationPath : Bip32Path
  masterFingerprint : String
  lastHealthCheck : Int
  masterSignerId : String
  used : Bool
deriving DecidableEq

/-! ## NunchukDb: the generic key/value record-store primitive

The VSTR (int key, string value) and VINT (int key, int value) tables of
NunchukDb (part_002 lines 60-165) are modelled as association lists. -/

/-- State of the two generic key/value tables of a NunchukDb. -/
structure NunchukDbState where
  vstr : List (Int × String)
  vint : List (Int × Int)
deriving DecidableEq

/-- The empty generic store (tables created, nothing written). -/
def NunchukDbState.empty : NunchukDbState := ⟨[], []⟩

/-- Number of rows of an association list holding key k (a model for the
rows matched by a WHERE ID = k clause). -/
def keyCount (l : List (Int × α)) (k : Int) : Nat :=
  (l.filter (fun e => e.1 = k)).length

/-- Upsert into an association list: the INSERT ... ON CONFLICT(ID) DO
UPDATE SET VALUE=excluded.VALUE statement.  If the key is present every row
holding it is rewritten, otherwise a new row is appended. -/
def upsert (l : List (Int × α)) (k : Int) (v : α) : List (Int × α) :=
  if l.any (fun e => e.1 = k) then
    l.map (fun e => if e.1 = k then (k, v) else e)
  else
    l ++ [(k, v)]

/-- NunchukDb::PutString (part_002 lines 109-122): upsert into VSTR, then
return sqlite3_changes(db_) == 1.  The upsert writes one row whether it
inserts or updates, and SQLite counts an update that leaves the value
unchanged, so the result is the number of rows written being exactly one. -/
def putString (s : NunchukDbState) (key : Int) (value : String) :
    NunchukDbState × Bool :=
  let changes := if s.vstr.any (fun e => e.1 = key) then keyCount s.vstr key else 1
  (⟨upsert s.vstr key value, s.vint⟩, changes = 1)

/-- NunchukDb::PutInt (part_002 lines 124-137): upsert into VINT, then
return sqlite3_changes(db_) == 1, counted exactly as in putString. -/
def putInt (s : NunchukDbState) (key : Int) (value : Int) :
    NunchukDbState × Bool :=
  let changes := if s.vint.any (fun e => e.1 = key) then keyCount s.vint key else 1
  (⟨s.vstr, upsert s.vint key value⟩, changes = 1)

/-- NunchukDb::GetString (part_002 lines 139-151): first VSTR row with the
key, or the empty string when none exists. -/
def getString (s : NunchukDbState) (key : Int) : String :=
  match s.vstr.find? (fun e => e.1 = key) with
  | some e => e.2
  | none => ""

/-- NunchukDb::GetInt (part_002 lines 153-165): first VINT row with the key,
or 0 when none exists. -/
def getInt (s : NunchukDbState) (key : Int) : Int :=
  match s.vint.find? (fun e => e.1 = key) with
  | some e => e.2
  | none => 0

/-- DbKeys constants (storage.h, referenced by src); concrete values are
arbitrary distinct integers. -/
def DbKeys.ID : Int := 0
def DbKeys.VERSION : Int := 1
def DbKeys.NAME : Int := 2
def DbKeys.FINGERPRINT : Int := 3
def DbKeys.MNEMONIC : Int := 4
def DbKeys.SIGNER_DEVICE_TYPE : Int := 5
def DbKeys.SIGNER_DEVICE_MODEL : Int := 6
def DbKeys.LAST_HEALTH_CHECK : Int := 7
def DbKeys.IMMUTABLE_DATA : Int := 8
def DbKeys.DESCRIPTION : Int := 9
def DbKeys.CHAIN_TIP : Int := 10
def DbKeys.SELECTED_WALLET : Int := 11

/-! ## NunchukSignerDb: the signer record store

The BIP32 derived-key cache table and the REMOTE table of NunchukSignerDb
(part_002 lines 1025-1325) are modelled as optional row lists: none models a
table that was never created (the structural is-a-master-signer property of
part_002 line 1173 is the presence of the BIP32 table). -/

/-- One row of the BIP32 table (PATH primary key, XPUB, TYPE, USED).
USED is -1 for an UNALLOCATED entry and 1 for an ALLOCATED one. -/
structure Bip32Row where
  path : Bip32Path
  xpub : String
  type : String
  used : Int
deriving DecidableEq

/-- One row of the REMOTE table (PATH primary key, XPUB, PUBKEY, NAME,
LAST_HEALTHCHECK, USED). -/
structure RemoteRow where
  path : Bip32Path
  xpub : String
  pubkey : String
  name : String
  lastHealthCheck : Int
  used : Int
deriving DecidableEq

/-- State of one signer record store.  The id field is the store id (the
master fingerprint the db file is keyed by). -/
structure SignerDbState where
  id : String
  chain : Chain
  kv : NunchukDbState
  bip32 : Option (List Bip32Row)
  remote : Option (List RemoteRow)
deriving DecidableEq

/-- Rows of the BIP32 table; an absent table reads as no rows (the C++
SELECT on a missing table fails to prepare and the cursor yields nothing). -/
def SignerDbState.bip32Rows (s : SignerDbState) : List Bip32Row :=
  s.bip32.getD []

/-- Rows of the REMOTE table, with the same missing-table convention. -/
def SignerDbState.remoteRows (s : SignerDbState) : List RemoteRow :=
  s.remote.getD []

/-- A freshly opened signer db file for a fingerprint (the NunchukSignerDb
constructor creates the SQLite file with no tables at all). -/
def SignerDbState.fresh (id : String) (chain : Chain) : SignerDbState :=
  ⟨id, chain, NunchukDbState.empty, none, none⟩

/-- NunchukSignerDb::InitSigner (part_002 lines 1025-1040): create the
generic tables and the BIP32 table, then store name, fingerprint, mnemonic
and device identity. -/
def signerInitSigner (s : SignerDbState) (name fingerprint mnemonic
    deviceType deviceModel : String) : SignerDbState :=
  let kv0 := (putString s.kv DbKeys.ID s.id).1
  let kv1 := (putString kv0 DbKeys.NAME name).1
  let kv2 := (putString kv1 DbKeys.FINGERPRINT fingerprint).1
  let kv3 := (putString kv2 DbKeys.MNEMONIC mnemonic).1
  let kv4 := (putString kv3 DbKeys.SIGNER_DEVICE_TYPE deviceType).1
  let kv5 := (putString kv4 DbKeys.SIGNER_DEVICE_MODEL deviceModel).1
  { s with kv := kv5, bip32 := some (s.bip32.getD []) }

/-- NunchukSignerDb::AddXPub on a raw path (part_002 lines 1048-1063):
INSERT INTO BIP32 VALUES (path, xpub, type, -1) ON CONFLICT(PATH) DO UPDATE
SET XPUB=excluded.XPUB.  On conflict only the XPUB column is rewritten; the
TYPE and USED columns keep their stored values. -/
def signerAddXPubPath (s : SignerDbState) (path : Bip32Path) (xpub : String)
    (type : String) : SignerDbState × Bool :=
  let rows := s.bip32Rows
  if rows.any (fun r => r.path = path) then
    let rows' := rows.map (fun r => if r.path = path then { r with xpub := xpub } else r)
    ({ s with bip32 := some rows' },
     (rows.filter (fun r => r.path = path)).length = 1)
  else
    ({ s with bip32 := some (rows ++ [⟨path, xpub, type, -1⟩]) }, true)

/-- NunchukSignerDb::AddXPub on a bucket index (part_002 lines 1065-1071):
resolve the canonical path and bucket tag, then add. -/
def signerAddXPubIndex (s : SignerDbState) (wt : WalletType)
    (adt : AddressType) (index : Int) (xpub : String) : SignerDbState × Bool :=
  signerAddXPubPath s (GetBip32Path s.chain wt adt index) xpub
    (GetBip32Type wt adt)

/-- NunchukSignerDb::UseIndex (part_002 lines 1073-1085): UPDATE BIP32 SET
USED = 1 WHERE PATH = canonical-path AND USED = -1, then return
sqlite3_changes(db_) == 1. -/
def signerUseIndex (s : SignerDbState) (wt : WalletType) (adt : AddressType)
    (index : Int) : SignerDbState × Bool :=
  let path := GetBip32Path s.chain wt adt index
  let rows := s.bip32Rows
  let matched := rows.filter (fun r => r.path = path && r.used = -1)
  let rows' := rows.map
    (fun r => if r.path = path && r.used = -1 then { r with used := 1 } else r)
  ({ s with bip32 := s.bip32.map (fun _ => rows') }, matched.length = 1)

/-- NunchukSignerDb::GetUnusedIndex (part_002 lines 1108-1122): SELECT PATH
FROM BIP32 WHERE TYPE = bucket AND USED = -1, read the first row only, and
return its parsed index, or -1 when no row matches. -/
def signerGetUnusedIndex (s : SignerDbState) (wt : WalletType)
    (adt : AddressType) : Int :=
  let type := GetBip32Type wt adt
  match s.bip32Rows.find? (fun r => r.type = type && r.used = -1) with
  | some r => GetIndexFromPath r.path
  | none => -1

/-- NunchukSignerDb::GetCachedIndex (part_002 lines 1124-1141): the highest
parsed index over every row of the bucket, independent of allocation state,
or -1 when the bucket is empty. -/
def signerGetCachedIndex (s : SignerDbState) (wt : WalletType)
    (adt : AddressType) : Int :=
  let type := GetBip32Type wt adt
  (s.bip32Rows.filter (fun r => r.type = type)).foldl
    (fun v r => if GetIndexFromPath r.path > v then GetIndexFromPath r.path else v)
    (-1)

/-- NunchukSignerDb::IsMaster (part_002 line 1173): the BIP32 table exists.
This is the structural capability property, not a stored flag. -/
def signerIsMaster (s : SignerDbState) : Bool :=
  s.bip32.isSome

/-- NunchukSignerDb::InitRemote (part_002 lines 1194-1204): CREATE TABLE IF
NOT EXISTS REMOTE. -/
def signerInitRemote (s : SignerDbState) : SignerDbState :=
  { s with remote := some (s.remote.getD []) }

/-- NunchukSignerDb::AddRemote (part_002 lines 1206-1226): create the REMOTE
table if needed, then INSERT a row with USED = 1 when used is requested and
USED = -1 otherwise.  A plain INSERT on an existing PATH violates the
primary key and writes nothing. -/
def signerAddRemote (s : SignerDbState) (name xpub publicKey : String)
    (path : Bip32Path) (used : Bool) : SignerDbState × Bool :=
  let s := signerInitRemote s
  let rows := s.remoteRows
  if rows.any (fun r => r.path = path) then
    (s, false)
  else
    let row : RemoteRow := ⟨path, xpub, publicKey, name, 0, if used then 1 else -1⟩
    ({ s with remote := some (rows ++ [row]) }, true)

/-- NunchukSignerDb::GetRemoteSigner (part_002 lines 1228-1251): the REMOTE
row with the path, as a SingleSigner whose fingerprint is the store id, or a
SIGNER_NOT_FOUND failure.  A missing REMOTE table yields no row and hence
the same failure. -/
def signerGetRemoteSigner (s : SignerDbState) (path : Bip32Path) :
    Except NunchukErr SingleSigner :=
  match s.remoteRows.find? (fun r => r.path = path) with
  | some r => Except.ok
      ⟨r.name, r.xpub, r.pubkey, path, s.id, r.lastHealthCheck, "", r.used = 1⟩
  | none => Except.error NunchukErr.SIGNER_NOT_FOUND

/-- NunchukSignerDb::DeleteRemoteSigner (part_002 lines 1253-1262): DELETE
FROM REMOTE WHERE PATH = path AND USED = -1, returning
sqlite3_changes(db_) == 1. -/
def signerDeleteRemoteSigner (s : SignerDbState) (path : Bip32Path) :
    SignerDbState × Bool :=
  let rows := s.remoteRows
  let matched := rows.filter (fun r => r.path = path && r.used = -1)
  let rows' := rows.filter (fun r => ¬(r.path = path ∧ r.used = -1))
  ({ s with remote := s.remote.map (fun _ => rows') }, matched.length = 1)

/-- NunchukSignerDb::UseRemote (part_002 lines 1264-1275): UPDATE REMOTE SET
USED = 1 WHERE PATH = path AND USED = -1, returning
sqlite3_changes(db_) == 1. -/
def signerUseRemote (s : SignerDbState) (path : Bip32Path) :
    SignerDbState × Bool :=
  let rows := s.remoteRows
  let matched := rows.filter (fun r => r.path = path && r.used = -1)
  let rows' := rows.map
    (fun r => if r.path = path && r.used = -1 then { r with used := 1 } else r)
  ({ s with remote := s.remote.map (fun _ => rows') }, matched.length = 1)

/-- NunchukSignerDb::GetRemoteSigners (part_002 lines 1303-1325): the empty
list when the record is a master signer, otherwise every REMOTE row as a
SingleSigner. -/
def signerGetRemoteSigners (s : SignerDbState) : List SingleSigner :=
  if signerIsMaster s then []
  else s.remoteRows.map
    (fun r => ⟨r.name, r.xpub, r.pubkey, r.path, s.id, r.lastHealthCheck, "",
               r.used = 1⟩)

/-- NunchukSignerDb::SetName (part_002 lines 1143-1145). -/
def signerSetName (s : SignerDbState) (value : String) : SignerDbState × Bool :=
  let (kv, b) := putString s.kv DbKeys.NAME value
  ({ s with kv := kv }, b)

/-- NunchukSignerDb::SetLastHealthCheck (part_002 lines 1147-1149). -/
def signerSetLastHealthCheck (s : SignerDbState) (value : Int) :
    SignerDbState × Bool :=
  let (kv, b) := putInt s.kv DbKeys.LAST_HEALTH_CHECK value
  ({ s with kv := kv }, b)

/-! ## NunchukWalletDb: the wallet record store

The VTX, ADDRESS and SIGNER tables of NunchukWalletDb (part_002 lines
178-1023) are modelled as row lists.  The external transaction/PSBT codec
(utils/txutils.hpp, out of scope per the spec) is modelled by storing the
decoded form directly: the VALUE column holds a TxPayload carrying the
transaction id, inputs, outputs and the signer-presence map the codec would
extract. -/

/-- Decoded transaction payload: what DecodeRawTransaction / DecodePsbt plus
the txutils helpers recover from the serialized VALUE column.  An input is a
(previous txid, previous vout) pair, an output an (address, amount) pair. -/
structure TxPayload where
  txid : String
  inputs : List (String × Int)
  outputs : List (String × Int)
  signers : List (String × Bool)
deriving DecidableEq

/-- Decoded EXTRA column (a JSON object in the C++): fee-bump linkage,
caller outputs, fee rate, subtract flag, per-signer signatures and the
reject message. -/
structure ExtraData where
  signers : Option (List (String × Bool))
  outputsAmt : Option (List (String × Int))
  feeRate : Option Int
  subtract : Option Bool
  replaceTxid : Option String
  replacedBy : Option String
  rejectMsg : Option String
deriving DecidableEq

/-- The empty EXTRA blob (the literal empty string stored by
InsertTransaction). -/
def ExtraData.empty : ExtraData := ⟨none, none, none, none, none, none, none⟩

/-- One row of the VTX table. -/
structure VtxRow where
  id : String
  value : TxPayload
  height : Int
  fee : Int
  memo : String
  changePos : Int
  blocktime : Int
  extra : ExtraData
deriving DecidableEq

/-- One backend unspent-output snapshot item (the parsed UTXO JSON persisted
per address; electrum fields tx_hash / tx_pos / value). -/
structure UtxoItem where
  txid : String
  vout : Int
  amount : Int
deriving DecidableEq

/-- One row of the ADDRESS table (ADDR primary key, IDX, INTERNAL, USED,
UTXO). -/
structure AddressRow where
  addr : String
  idx : Int
  internal : Bool
  used : Bool
  utxo : Option (List UtxoItem)
deriving DecidableEq

/-- One row of the wallet SIGNER table (KEY primary key, NAME, MASTER_ID,
LAST_HEALTHCHECK).  The KEY column is the JSON of GetSingleSignerKey,
modelled structurally as the quadruple it serializes: xpub, public key,
derivation path and lower-cased master fingerprint. -/
structure WalletSignerRow where
  keyXpub : String
  keyPublicKey : String
  keyDerivationPath : Bip32Path
  keyMasterFingerprint : String
  name : String
  masterId : String
  lastHealthCheck : Int
deriving DecidableEq

/-- State of one wallet record store. -/
structure WalletDbState where
  id : String
  kv : NunchukDbState
  vtx : List VtxRow
  addresses : List AddressRow
  signerRows : List WalletSignerRow
deriving DecidableEq

/-- The in-memory Transaction object assembled by GetTransaction /
GetTransactions (txid, decoded fields, row metadata and a derived status). -/
structure Transaction where
  txid : String
  inputs : List (String × Int)
  outputs : List (String × Int)
  height : Int
  fee : Int
  memo : String
  changePos : Int
  blocktime : Int
  status : TransactionStatus
  replacedBy : Option String
deriving DecidableEq

/-- Modelled from the spec: the status assignment of the txutils codec
(utils/txutils.hpp, missing from src), per the lifecycle of spec section 3:
height -1 is a draft awaiting signatures, height 0 is broadcast and pending
confirmation, positive height is confirmed. -/
def statusOfHeight (height : Int) : TransactionStatus :=
  if height > 0 then TransactionStatus.CONFIRMED
  else if height = 0 then TransactionStatus.PENDING_CONFIRMATION
  else TransactionStatus.PENDING_SIGNATURES

/-- NunchukWalletDb::FillExtra (part_002 lines 946-975) restricted to the
status-relevant part: a pending-confirmation transaction whose extra names a
replacement becomes REPLACED. -/
def fillExtraStatus (extra : ExtraData) (st : TransactionStatus) :
    TransactionStatus × Option String :=
  if st = TransactionStatus.PENDING_CONFIRMATION ∧ extra.replacedBy.isSome then
    (TransactionStatus.REPLACED, extra.replacedBy)
  else (st, none)

/-- Assemble the Transaction of one VTX row, as GetTransaction and
GetTransactions (part_002 lines 660-705 and 863-904) do: decode VALUE, copy
the row metadata, derive the status from the height and apply FillExtra. -/
def rowToTransaction (row : VtxRow) : Transaction :=
  let st0 := statusOfHeight row.height
  let (st, rb) := fillExtraStatus row.extra st0
  ⟨row.id, row.value.inputs, row.value.outputs, row.height, row.fee, row.memo,
   row.changePos, row.blocktime, st, rb⟩

/-- NunchukWalletDb::GetTransactions (part_002 lines 863-904): every VTX row
as a Transaction (the count and skip parameters are unused by the query). -/
def walletGetTransactions (w : WalletDbState) : List Transaction :=
  w.vtx.map rowToTransaction

/-- NunchukWalletDb::GetTransaction (part_002 lines 660-705): the VTX row
with the id, or a TX_NOT_FOUND failure. -/
def walletGetTransaction (w : WalletDbState) (txId : String) :
    Except NunchukErr Transaction :=
  match w.vtx.find? (fun r => r.id = txId) with
  | some row => Except.ok (rowToTransaction row)
  | none => Except.error NunchukErr.TX_NOT_FOUND

/-- NunchukWalletDb::AddAddress (part_002 lines 328-341): INSERT INTO
ADDRESS VALUES (addr, index, internal, 0) and return the literal true.  A
plain INSERT on an existing ADDR violates the primary key and writes
nothing (the step result is not checked). -/
def walletAddAddress (w : WalletDbState) (address : String) (index : Int)
    (internal : Bool) : WalletDbState × Bool :=
  if w.addresses.any (fun r => r.addr = address) then (w, true)
  else
    ({ w with addresses := w.addresses ++ [⟨address, index, internal, false, none⟩] },
     true)

/-- NunchukWalletDb::UseAddress (part_002 lines 343-353): false on the empty
address, otherwise UPDATE ADDRESS SET USED = 1 WHERE ADDR = address and
return sqlite3_changes(db_) == 1.  The WHERE clause does not test USED, so a
row whose flag is already set is still counted. -/
def walletUseAddress (w : WalletDbState) (address : String) :
    WalletDbState × Bool :=
  if address = "" then (w, false)
  else
    let matched := w.addresses.filter (fun r => r.addr = address)
    let rows' := w.addresses.map
      (fun r => if r.addr = address then { r with used := true } else r)
    ({ w with addresses := rows' }, matched.length = 1)

/-- NunchukWalletDb::GetAddresses (part_002 lines 355-371): the addresses
with the given USED and INTERNAL flags. -/
def walletGetAddresses (w : WalletDbState) (used internal : Bool) :
    List String :=
  (w.addresses.filter (fun r => r.used = used && r.internal = internal)).map
    (fun r => r.addr)

/-- NunchukWalletDb::GetAllAddresses (part_002 lines 397-409). -/
def walletGetAllAddresses (w : WalletDbState) : List String :=
  w.addresses.map (fun r => r.addr)

/-- NunchukWalletDb::SetUtxos (part_002 lines 743-754): UPDATE ADDRESS SET
UTXO = utxo WHERE ADDR = address, returning sqlite3_changes(db_) == 1. -/
def walletSetUtxos (w : WalletDbState) (address : String)
    (utxo : List UtxoItem) : WalletDbState × Bool :=
  let matched := w.addresses.filter (fun r => r.addr = address)
  let rows' := w.addresses.map
    (fun r => if r.addr = address then { r with utxo := some utxo } else r)
  ({ w with addresses := rows' }, matched.length = 1)

/-- Apply UseAddress to every output address of a transaction, as the
height-positive branches of InsertTransaction and UpdateTransaction do. -/
def walletUseOutputAddresses (w : WalletDbState)
    (outputs : List (String × Int)) : WalletDbState :=
  outputs.foldl (fun acc out => (walletUseAddress acc out.1).1) w

/-- NunchukWalletDb::InsertTransaction (part_002 lines 425-452): INSERT the
decoded transaction under its hash with empty EXTRA (a duplicate id writes
nothing), re-read it, and when the given height is positive mark every
output address used.  The re-read transaction is returned. -/
def walletInsertTransaction (w : WalletDbState) (rawTx : TxPayload)
    (height : Int) (blocktime : Int) (fee : Int) (memo : String)
    (changePos : Int) : WalletDbState × Except NunchukErr Transaction :=
  let txId := rawTx.txid
  let w1 :=
    if w.vtx.any (fun r => r.id = txId) then w
    else { w with vtx := w.vtx ++
            [⟨txId, rawTx, height, fee, memo, changePos, blocktime, ExtraData.empty⟩] }
  match walletGetTransaction w1 txId with
  | Except.ok tx =>
      let w2 := if height > 0 then walletUseOutputAddresses w1 tx.outputs else w1
      (w2, Except.ok tx)
  | Except.error e => (w1, Except.error e)

/-- NunchukWalletDb::SetReplacedBy (part_002 lines 454-478): record the
replacement id inside the EXTRA blob of the replaced transaction. -/
def walletSetReplacedBy (w : WalletDbState) (oldTxid newTxid : String) :
    WalletDbState :=
  let rows' := w.vtx.map (fun r =>
    if r.id = oldTxid then { r with extra := { r.extra with replacedBy := some newTxid } }
    else r)
  { w with vtx := rows' }

/-- NunchukWalletDb::UpdateTransaction (part_002 lines 480-540): a no-op
returning false at height -1; otherwise, when the height is not positive and
a draft row (HEIGHT = -1) with this id exists, persist the signer map of the
stored PSBT (and the reject message, and the fee-bump linkage) into EXTRA;
then rewrite VALUE, HEIGHT and BLOCKTIME (and EXTRA when rebuilt) of the row
and, when the update hit a row and the height is positive, mark every output
address of the stored transaction used.  The row-rewriting stage is split
out as updateTxStage1, the rest follows below. -/
def updateTxStage1 (w : WalletDbState) (rawTx : TxPayload)
    (height : Int) (blocktime : Int) (rejectMsg : String) :
    WalletDbState × Bool :=
  let txId := rawTx.txid
  let psbtRow :=
    if height ≤ 0 then w.vtx.find? (fun r => r.id = txId && r.height = -1)
    else none
  let extra? : Option ExtraData :=
    match psbtRow with
    | some row => some
        { row.extra with
            signers := some row.value.signers,
            rejectMsg := if rejectMsg = "" then row.extra.rejectMsg else some rejectMsg }
    | none => none
  let w1 :=
    match psbtRow with
    | some row =>
        match row.extra.replaceTxid with
        | some old => walletSetReplacedBy w old txId
        | none => w
    | none => w
  let matched := w1.vtx.filter (fun r => r.id = txId)
  let rows' := w1.vtx.map (fun r =>
    if r.id = txId then
      { r with value := rawTx, height := height, blocktime := blocktime,
               extra := extra?.getD r.extra }
    else r)
  ({ w1 with vtx := rows' }, matched.length = 1)

def walletUpdateTransaction (w : WalletDbState) (rawTx : TxPayload)
    (height : Int) (blocktime : Int) (rejectMsg : String) :
    WalletDbState × Bool :=
  if height = -1 then (w, false)
  else
    let (w2, updated) := updateTxStage1 w rawTx height blocktime rejectMsg
    if updated ∧ height > 0 then
      match walletGetTransaction w2 rawTx.txid with
      | Except.ok tx => (walletUseOutputAddresses w2 tx.outputs, updated)
      | Except.error _ => (w2, updated)
    else (w2, updated)

/-- NunchukWalletDb::DeleteTransaction (part_002 lines 707-716). -/
def walletDeleteTransaction (w : WalletDbState) (txId : String) :
    WalletDbState × Bool :=
  let matched := w.vtx.filter (fun r => r.id = txId)
  ({ w with vtx := w.vtx.filter (fun r => ¬ r.id = txId) }, matched.length = 1)

/-- Collector for GetUnspentOutputs results. -/
structure UnspentOutput where
  txid : String
  vout : Int
  address : String
  amount : Int
  height : Int
  memo : String
deriving DecidableEq

/-- Height of a transaction id per the height_map of GetUnspentOutputs (a
std::map defaulting to 0 for an unknown id). -/
def heightMapLookup (txs : List Transaction) (txid : String) : Int :=
  match txs.find? (fun t => t.txid = txid) with
  | some t => t.height
  | none => 0

/-- Memo of a transaction id per the memo_map of GetUnspentOutputs (a
std::map defaulting to the empty string). -/
def memoMapLookup (txs : List Transaction) (txid : String) : String :=
  match txs.find? (fun t => t.txid = txid) with
  | some t => t.memo
  | none => ""

/-- The (index, output) pairs of a transaction whose address is one of the
given change addresses: the outputs manually injected for an in-mempool
transaction by GetUnspentOutputs. -/
def changeOutputsOf (changeAddrs : List String) (t : Transaction) :
    List (Nat × (String × Int)) :=
  t.outputs.enum.filter (fun e => changeAddrs.contains e.2.1)

/-- NunchukWalletDb::GetUnspentOutputs (part_002 lines 773-861).  The
imperative loop is rendered compositionally and exactly: the first pass over
the transactions pushes, for every transaction at height 0, each output
paying a change address (GetAddresses(false, true)) as a manual UTXO and
records its key in the locked set, and (when remove_locked) also records
every input of such a transaction; the second pass emits every persisted
snapshot item whose (txid, vout) key the completed locked set does not
contain.  Locked keys are modelled as (txid, vout) pairs (the C++ encodes
them as strings). -/
def walletGetUnspentOutputs (w : WalletDbState) (removeLocked : Bool) :
    List UnspentOutput :=
  let txs := walletGetTransactions w
  let changeAddrs := walletGetAddresses w false true
  let pending := txs.filter (fun t => t.height = 0)
  let injected := pending.flatMap (fun t =>
    (changeOutputsOf changeAddrs t).map (fun e =>
      ⟨t.txid, Int.ofNat e.1, e.2.1, e.2.2, t.height, t.memo⟩))
  let lockedChange : List (String × Int) := pending.flatMap (fun t =>
    (changeOutputsOf changeAddrs t).map (fun e => (t.txid, Int.ofNat e.1)))
  let lockedInputs : List (String × Int) :=
    if removeLocked then pending.flatMap (fun t => t.inputs) else []
  let locked := lockedChange ++ lockedInputs
  let snapshot := w.addresses.flatMap (fun a =>
    match a.utxo with
    | none => []
    | some items => items.filterMap (fun it =>
        if locked.contains (it.txid, it.vout) then none
        else some ⟨it.txid, it.vout, a.addr, it.amount,
                   heightMapLookup txs it.txid, memoMapLookup txs it.txid⟩))
  injected ++ snapshot

/-- NunchukWalletDb::GetBalance (part_002 lines 756-771): over the unspent
outputs with locked inputs removed, sum the confirmed amounts and the
in-mempool amounts paying a change address. -/
def walletGetBalance (w : WalletDbState) : Int :=
  let utxos := walletGetUnspentOutputs w true
  let changeAddrs := walletGetAddresses w false true
  utxos.foldl (fun acc u =>
    if u.height > 0 ∨ changeAddrs.contains u.address then acc + u.amount
    else acc) 0

/-- boost::to_lower on an ASCII string, written structurally over the
character list. -/
def strToLower (s : String) : String := ⟨s.data.map Char.toLower⟩

/-- NunchukWalletDb::GetSingleSignerKey (part_002 lines 241-248): the KEY
column content of a signer slot, carrying xpub, public key, derivation path
and the lower-cased master fingerprint. -/
def getSingleSignerKey (signer : SingleSigner) :
    String × String × Bip32Path × String :=
  (signer.xpub, signer.publicKey, signer.derivationPath,
   strToLower signer.masterFingerprint)

/-- NunchukWalletDb::AddSigner (part_002 lines 250-267): INSERT INTO SIGNER
(a duplicate KEY writes nothing), storing the name, the lower-cased master
signer id and the health-check time next to the key. -/
def walletAddSigner (w : WalletDbState) (signer : SingleSigner) :
    WalletDbState × Bool :=
  let key := getSingleSignerKey signer
  if w.signerRows.any (fun r =>
      (r.keyXpub, r.keyPublicKey, r.keyDerivationPath, r.keyMasterFingerprint) = key)
  then (w, false)
  else
    let row : WalletSignerRow :=
      ⟨key.1, key.2.1, key.2.2.1, key.2.2.2, signer.name,
       strToLower signer.masterSignerId, signer.lastHealthCheck⟩
    ({ w with signerRows := w.signerRows ++ [row] }, true)

/-- NunchukWalletDb::GetSigners (part_002 lines 300-326): rebuild every
signer slot from its SIGNER row; the used flag of the seven-argument
SingleSigner constructor defaults to false. -/
def walletGetSigners (w : WalletDbState) : List SingleSigner :=
  w.signerRows.map (fun r =>
    ⟨r.name, r.keyXpub, r.keyPublicKey, r.keyDerivationPath,
     strToLower r.keyMasterFingerprint, r.lastHealthCheck, r.masterId, false⟩)

/-- Immutable wallet policy data persisted by InitWallet (the
DbKeys::IMMUTABLE_DATA JSON), modelled structurally next to the kv store. -/
structure ImmutableData where
  m : Int
  n : Int
  addressType : AddressType
  isEscrow : Bool
  createDate : Int
deriving DecidableEq

/-- NunchukWalletDb::InitWallet (part_002 lines 178-225): create the tables,
store name, description and the immutable policy blob, and add every signer
slot.  The immutable blob is carried as a structured field of the wallet
state (its kv serialization is out of scope). -/
def walletInitWallet (id : String) (name : String) (m n : Int)
    (signers : List SingleSigner) (addressType : AddressType)
    (isEscrow : Bool) (createDate : Int) (description : String) :
    WalletDbState × ImmutableData :=
  let kv0 := (putString NunchukDbState.empty DbKeys.ID id).1
  let kv1 := (putString kv0 DbKeys.NAME name).1
  let kv2 := (putString kv1 DbKeys.DESCRIPTION description).1
  let w0 : WalletDbState := ⟨id, kv2, [], [], []⟩
  let w1 := signers.foldl (fun acc s => (walletAddSigner acc s).1) w0
  (w1, ⟨m, n, addressType, isEscrow, createDate⟩)

/-! ## Derivation/identity utility and the storage facade

NunchukStorage is embedded from src/src/storage (the file also carrying the
NunchukRoomDb code), whose CreateWallet/CreateWallet0 is the current form of
the wallet-creation protocol of spec section 4.6; the older copy of
CreateWallet in part_002 lines 1575-1624 lacks the parameter validation, the
path verification and the override flag. -/

/-- DescriptorPath, from nunchuk.h (referenced by src). -/
inductive DescriptorPath
  | ANY
  | EXTERNAL_ALL
  | INTERNAL_ALL
deriving DecidableEq

/-- String encoding of a structured path, used inside descriptor keys. -/
def pathEncode : Bip32Path → String
  | Bip32Path.derived c w a i =>
      let cs := match c with
        | Chain.MAIN => "main"
        | Chain.TESTNET => "testnet"
        | Chain.REGTEST => "regtest"
      cs ++ "-" ++ GetBip32Type w a ++ "-" ++ toString i
  | Bip32Path.custom s => "custom-" ++ s

/-- Modelled from the spec: the descriptor key text of one signer, a pure
function of its xpub (or bare public key when no xpub exists), derivation
path and master fingerprint; display attributes do not participate. -/
def signerDescKey (s : SingleSigner) : String :=
  s.masterFingerprint ++ "/" ++ pathEncode s.derivationPath ++ "/" ++
    (if s.xpub = "" then s.publicKey else s.xpub)

/-- Insert a string into a lexicographically sorted list. -/
def insertSorted (x : String) : List String → List String
  | [] => [x]
  | y :: ys => if x ≤ y then x :: y :: ys else y :: insertSorted x ys

/-- Sort a list of strings lexicographically. -/
def sortStrings (l : List String) : List String := l.foldr insertSorted []

/-- Modelled from the spec: GetDescriptorForSigners of descriptor.cpp
(declared in src by descriptor.h, implementation missing from src).  Per
spec section 4.1 the canonical descriptor is a pure function of the signer
set (sorted, hence order-independent over signer identity), the policy m,
the address kind and the wallet kind. -/
def GetDescriptorForSigners (signers : List SingleSigner) (m : Int)
    (dp : DescriptorPath) (adt : AddressType) (wt : WalletType) : String :=
  let keys := sortStrings (signers.map signerDescKey)
  let dps := match dp with
    | DescriptorPath.ANY => "any"
    | DescriptorPath.EXTERNAL_ALL => "external"
    | DescriptorPath.INTERNAL_ALL => "internal"
  let adts := match adt with
    | AddressType.ANY => "any"
    | AddressType.LEGACY => "legacy"
    | AddressType.NESTED_SEGWIT => "nested"
    | AddressType.NATIVE_SEGWIT => "native"
  let wts := match wt with
    | WalletType.SINGLE_SIG => "single"
    | WalletType.MULTI_SIG => "multi"
    | WalletType.ESCROW => "escrow"
  let joined := keys.foldl (fun acc k => acc ++ "," ++ k) ""
  dps ++ ":" ++ adts ++ ":" ++ wts ++ ":" ++ toString m ++ ":" ++ joined

/-- Modelled from the spec: GetDescriptorChecksum (the external descriptor
checksum algorithm, out of scope per spec section 1); modelled as an
injective pure function of the descriptor string, which is all the spec
relies on.  The concrete compression to 8 hex characters is not modelled. -/
def GetDescriptorChecksum (desc : String) : String :=
  "cks:" ++ desc

/-- The wallet-kind computation of CreateWallet0: single-sig when n is one,
else escrow by flag, else multisig. -/
def walletTypeOf (n : Int) (isEscrow : Bool) : WalletType :=
  if n = 1 then WalletType.SINGLE_SIG
  else if isEscrow then WalletType.ESCROW
  else WalletType.MULTI_SIG

/-- The content-addressed wallet id of spec section 4.1: the checksum of
the canonical external descriptor of the signer set. -/
def walletIdOf (signers : List SingleSigner) (m : Int) (adt : AddressType)
    (wt : WalletType) : String :=
  GetDescriptorChecksum
    (GetDescriptorForSigners signers m DescriptorPath.EXTERNAL_ALL adt wt)

/-- The Wallet object returned by CreateWallet0. -/
structure Wallet where
  id : String
  m : Int
  n : Int
  signers : List SingleSigner
  addressType : AddressType
  isEscrow : Bool
  createDate : Int
  name : String
  description : String
  balance : Int
deriving DecidableEq

/-- One wallet store of the facade: the record-store state plus the decoded
immutable policy blob. -/
structure WalletStore where
  db : WalletDbState
  immutable : ImmutableData
deriving DecidableEq

/-- State of the storage facade for one chain: the wallet store files and
the signer store files of the chain subtree, keyed by store id. -/
structure StorageState where
  wallets : List (String × WalletStore)
  signers : List (String × SignerDbState)
deriving DecidableEq

/-- Open the signer store of a fingerprint; the NunchukSignerDb constructor
creates an empty store file when none exists. -/
def getSignerDbOrFresh (st : StorageState) (chain : Chain) (id : String) :
    SignerDbState :=
  match st.signers.find? (fun e => e.1 = id) with
  | some e => e.2
  | none => SignerDbState.fresh id chain

/-- Persist a signer store under its id (every mutating NunchukSignerDb call
writes through to its file immediately). -/
def saveSignerDb (st : StorageState) (id : String) (sdb : SignerDbState) :
    StorageState :=
  if st.signers.any (fun e => e.1 = id) then
    { st with signers := st.signers.map (fun e => if e.1 = id then (id, sdb) else e) }
  else
    { st with signers := st.signers ++ [(id, sdb)] }

/-- The per-signer step of NunchukStorage::CreateWallet0 (src/src/storage,
lines 635-667): open (creating if needed) the signer store of the signer's
fingerprint; for a master signer carrying an xpub, verify the supplied path
against the canonical path of its own index (throwing INVALID_BIP32_PATH on
mismatch), cache the xpub and allocate the index (throwing SIGNER_USED when
the allocation fails and the override flag is off); otherwise mark an
existing remote entry used, or create one marked used. -/
def processOneSigner (chain : Chain) (wt : WalletType) (adt : AddressType)
    (allowUsedSigner : Bool) (st : StorageState) (signer : SingleSigner) :
    StorageState × Option NunchukErr :=
  let masterId := signer.masterFingerprint
  let sdb := getSignerDbOrFresh st chain masterId
  let st0 := saveSignerDb st masterId sdb
  if signerIsMaster sdb ∧ signer.xpub ≠ "" then
    let index := GetIndexFromPath signer.derivationPath
    if FormalizePath (GetBip32Path chain wt adt index) ≠
        FormalizePath signer.derivationPath then
      (st0, some NunchukErr.INVALID_BIP32_PATH)
    else
      let sdb1 := (signerAddXPubIndex sdb wt adt index signer.xpub).1
      let (sdb2, ok) := signerUseIndex sdb1 wt adt index
      let st1 := saveSignerDb st0 masterId sdb2
      if ok = false ∧ allowUsedSigner = false then
        (st1, some NunchukErr.SIGNER_USED)
      else (st1, none)
  else
    match signerGetRemoteSigner sdb signer.derivationPath with
    | Except.ok _ =>
        let (sdb1, _) := signerUseRemote sdb signer.derivationPath
        (saveSignerDb st0 masterId sdb1, none)
    | Except.error _ =>
        let (sdb1, _) := signerAddRemote sdb "import" signer.xpub
          signer.publicKey signer.derivationPath true
        (saveSignerDb st0 masterId sdb1, none)

/-- The signer loop of CreateWallet0: process the signers left to right,
stopping at the first failure; all mutations of already-processed signers
remain applied (each one was persisted to its own store file). -/
def processSigners (chain : Chain) (wt : WalletType) (adt : AddressType)
    (allowUsedSigner : Bool) (st : StorageState) :
    List SingleSigner → StorageState × Option NunchukErr
  | [] => (st, none)
  | s :: rest =>
      match processOneSigner chain wt adt allowUsedSigner st s with
      | (st', none) => processSigners chain wt adt allowUsedSigner st' rest
      | (st', some e) => (st', some e)

/-- NunchukStorage::CreateWallet0 (src/src/storage, lines 617-683): validate
the policy, process every signer, compute the content-addressed wallet id
from the canonical external descriptor, fail with WALLET_EXISTED when that
id's store already exists, otherwise initialize the wallet store.  On a
failure the state mutated so far is returned unchanged (the C++ throw rolls
nothing back, every store write already being durable). -/
def createWallet0 (st : StorageState) (chain : Chain) (name : String)
    (m n : Int) (signers : List SingleSigner) (addressType : AddressType)
    (isEscrow : Bool) (description : String) (allowUsedSigner : Bool)
    (createDate : Int) : StorageState × Except NunchukErr Wallet :=
  if m > n then (st, Except.error NunchukErr.INVALID_PARAMETER)
  else if ¬ n = Int.ofNat signers.length then
    (st, Except.error NunchukErr.INVALID_PARAMETER)
  else
    let wt := walletTypeOf n isEscrow
    match processSigners chain wt addressType allowUsedSigner st signers with
    | (st1, some e) => (st1, Except.error e)
    | (st1, none) =>
        let externalDesc := GetDescriptorForSigners signers m
          DescriptorPath.EXTERNAL_ALL addressType wt
        let id := GetDescriptorChecksum externalDesc
        if st1.wallets.any (fun e => e.1 = id) then
          (st1, Except.error NunchukErr.WALLET_EXISTED)
        else
          let (wdb, imm) := walletInitWallet id name m n signers addressType
            isEscrow createDate description
          let st2 := { st1 with wallets := st1.wallets ++ [(id, ⟨wdb, imm⟩)] }
          (st2, Except.ok
            ⟨id, m, n, signers, addressType, isEscrow, createDate, name,
             description, 0⟩)

/-- Look up a wallet store of the facade; a missing file raises
WALLET_NOT_FOUND (NunchukStorage::GetWalletDb). -/
def storageGetWalletDb (st : StorageState) (walletId : String) :
    Except NunchukErr WalletStore :=
  match st.wallets.find? (fun e => e.1 = walletId) with
  | some e => Except.ok e.2
  | none => Except.error NunchukErr.WALLET_NOT_FOUND

/-- Replace the record-store state of a wallet of the facade. -/
def storagePutWalletDb (st : StorageState) (walletId : String)
    (db : WalletDbState) : StorageState :=
  { st with wallets := st.wallets.map (fun e =>
      if e.1 = walletId then (walletId, ⟨db, e.2.immutable⟩) else e) }

/-- NunchukStorage::GetTransaction (facade): delegate to the wallet store
(FillSendReceiveData only decorates display fields). -/
def storageGetTransaction (st : StorageState) (walletId txId : String) :
    Except NunchukErr Transaction :=
  match storageGetWalletDb st walletId with
  | Except.ok ws => walletGetTransaction ws.db txId
  | Except.error e => Except.error e

/-- NunchukStorage::UpdateTransaction (facade). -/
def storageUpdateTransaction (st : StorageState) (walletId : String)
    (rawTx : TxPayload) (height blocktime : Int) (rejectMsg : String) :
    StorageState × Except NunchukErr Bool :=
  match storageGetWalletDb st walletId with
  | Except.ok ws =>
      let (db', b) := walletUpdateTransaction ws.db rawTx height blocktime rejectMsg
      (storagePutWalletDb st walletId db', Except.ok b)
  | Except.error e => (st, Except.error e)

/-- NunchukStorage::InsertTransaction (facade). -/
def storageInsertTransaction (st : StorageState) (walletId : String)
    (rawTx : TxPayload) (height blocktime fee : Int) (memo : String)
    (changePos : Int) : StorageState × Except NunchukErr Transaction :=
  match storageGetWalletDb st walletId with
  | Except.ok ws =>
      let (db', r) := walletInsertTransaction ws.db rawTx height blocktime fee
        memo changePos
      (storagePutWalletDb st walletId db', r)
  | Except.error e => (st, Except.error e)

/-- NunchukStorage::AddAddress (facade). -/
def storageAddAddress (st : StorageState) (walletId address : String)
    (index : Int) (internal : Bool) : StorageState × Except NunchukErr Bool :=
  match storageGetWalletDb st walletId with
  | Except.ok ws =>
      let (db', b) := walletAddAddress ws.db address index internal
      (storagePutWalletDb st walletId db', Except.ok b)
  | Except.error e => (st, Except.error e)

/-- NunchukStorage::SetUtxos (facade). -/
def storageSetUtxos (st : StorageState) (walletId address : String)
    (utxo : List UtxoItem) : StorageState × Except NunchukErr Bool :=
  match storageGetWalletDb st walletId with
  | Except.ok ws =>
      let (db', b) := walletSetUtxos ws.db address utxo
      (storagePutWalletDb st walletId db', Except.ok b)
  | Except.error e => (st, Except.error e)

/-! ## ElectrumSynchronizer

The connection state machine and the reconciliation functions of part_003.
The Electrum client is modelled as an oracle of pure response functions; the
four listener sinks are modelled as an accumulated event list. -/

/-- Synchronizer status (synchronizer.h, referenced by src). -/
inductive SyncStatus
  | UNINITIALIZED
  | CONNECTING
  | SYNCING
  | READY
  | STOPPED
deriving DecidableEq

/-- One transaction-status listener call. -/
structure SyncEvent where
  txid : String
  status : TransactionStatus
  walletId : String
deriving DecidableEq

/-- One backend history item ((tx_hash, height) plus the mempool fee the
electrum protocol attaches to unconfirmed entries). -/
structure HistoryItem where
  txHash : String
  height : Int
  fee : Int
deriving DecidableEq

/-- The response of blockchain.transaction.get: the hex payload (decoded)
and the optional blocktime. -/
structure TxGetResult where
  payload : TxPayload
  blocktime : Option Int
deriving DecidableEq

/-- The chain-indexing backend as a pure oracle: full-transaction fetch,
per-scripthash history and per-scripthash unspent-output snapshot. -/
structure Backend where
  txGet : String → TxGetResult
  histOf : String → List HistoryItem
  utxoOf : String → List UtxoItem

/-- Modelled from the spec: AddressToScriptHash of utils/addressutils.hpp
(missing from src), an injective hash of the address; modelled as the
address itself. -/
def AddressToScriptHash (address : String) : String := address

/-- In-memory synchronizer state: the status guarded by the status mutex,
the chain of the application settings, and the subscribed
scripthash-to-(wallet, address) map. -/
structure SyncState where
  status : SyncStatus
  appChain : Chain
  subs : List (String × String × String)
deriving DecidableEq

/-- ElectrumSynchronizer::SubscribeAddress (part_003 lines 127-133): record
the scripthash mapping and subscribe. -/
def subscribeAddress (sync : SyncState) (walletId address : String) :
    SyncState × String :=
  let sh := AddressToScriptHash address
  let subs' := (sync.subs.filter (fun e => ¬ e.1 = sh)) ++ [(sh, walletId, address)]
  ({ sync with subs := subs' }, sh)

/-- One iteration of ElectrumSynchronizer::UpdateTransactions (part_003
lines 81-110): when a local record exists and is not yet confirmed while the
reported height is positive, fetch the full transaction, promote the record
and fire a confirmed event; when no local record exists, fetch and insert it
(height 0 plus the mempool fee when unconfirmed) and fire the status event
matching the height; an already-confirmed record (or any other storage
failure, swallowed by the catch) leaves the state untouched and fires
nothing. -/
def processHistoryItem (txGet : String → TxGetResult) (st : StorageState)
    (walletId : String) (item : HistoryItem) :
    StorageState × List SyncEvent :=
  match storageGetTransaction st walletId item.txHash with
  | Except.ok tx =>
      if tx.status ≠ TransactionStatus.CONFIRMED ∧ item.height > 0 then
        let fetched := txGet item.txHash
        let st' := (storageUpdateTransaction st walletId fetched.payload
          item.height (fetched.blocktime.getD 0) "").1
        (st', [⟨item.txHash, TransactionStatus.CONFIRMED, walletId⟩])
      else (st, [])
  | Except.error NunchukErr.TX_NOT_FOUND =>
      let fetched := txGet item.txHash
      let h : Int := if item.height ≤ 0 then 0 else item.height
      let fee : Int := if item.height ≤ 0 then item.fee else 0
      let st' := (storageInsertTransaction st walletId fetched.payload h
        (fetched.blocktime.getD 0) fee "" (-1)).1
      let status := if item.height ≤ 0 then TransactionStatus.PENDING_CONFIRMATION
        else TransactionStatus.CONFIRMED
      (st', [⟨item.txHash, status, walletId⟩])
  | Except.error _ => (st, [])

/-- ElectrumSynchronizer::UpdateTransactions (part_003 lines 77-111): fold
processHistoryItem over the reported history, accumulating events. -/
def updateTransactions (txGet : String → TxGetResult) (st : StorageState)
    (walletId : String) (history : List HistoryItem) :
    StorageState × List SyncEvent :=
  history.foldl (fun acc item =>
    let (st', evs) := processHistoryItem txGet acc.1 walletId item
    (st', acc.2 ++ evs)) (st, [])

/-- ElectrumSynchronizer::LookAhead (part_003 lines 205-220): refuse unless
the status is READY or SYNCING and the chain matches the application chain;
subscribe the candidate address, query its history, and return false without
touching the ledger when the history is empty; otherwise persist the address,
reconcile the history and store the unspent-output snapshot, returning
true. -/
def lookAhead (sync : SyncState) (st : StorageState) (backend : Backend)
    (chain : Chain) (walletId address : String) (index : Int)
    (internal : Bool) : SyncState × StorageState × Bool × List SyncEvent :=
  if ¬ sync.status = SyncStatus.READY ∧ ¬ sync.status = SyncStatus.SYNCING then
    (sync, st, false, [])
  else if ¬ chain = sync.appChain then (sync, st, false, [])
  else
    let (sync1, sh) := subscribeAddress sync walletId address
    let history := backend.histOf sh
    if history.isEmpty then (sync1, st, false, [])
    else
      let (st1, _) := storageAddAddress st walletId address index internal
      let (st2, evs) := updateTransactions backend.txGet st1 walletId history
      let (st3, _) := storageSetUtxos st2 walletId address (backend.utxoOf sh)
      (sync1, st3, true, evs)

/-! ## Remaining wallet mutators and operation traces

The remaining NunchukWalletDb mutators that touch the VTX table, and the
operation inductives used to state trace invariants (the set of mutations
the storage facade performs on an opened store; whole-record deletion drops
the tables themselves and is outside these traces). -/

/-- NunchukWalletDb::CreatePsbt (part_002 lines 555-588): insert a draft row
at height -1 carrying the caller outputs, fee rate, subtract flag and
fee-bump linkage in EXTRA (a duplicate id writes nothing). -/
def walletCreatePsbt (w : WalletDbState) (psbt : TxPayload) (fee : Int)
    (memo : String) (changePos : Int) (outputsAmt : List (String × Int))
    (feeRate : Int) (subtract : Bool) (replaceTx : Option String) :
    WalletDbState × Except NunchukErr Transaction :=
  let txId := psbt.txid
  let extra : ExtraData :=
    ⟨none, some outputsAmt, some feeRate, some subtract, replaceTx, none, none⟩
  let w1 :=
    if w.vtx.any (fun r => r.id = txId) then w
    else { w with vtx := w.vtx ++ [⟨txId, psbt, -1, fee, memo, changePos, 0, extra⟩] }
  (w1, walletGetTransaction w1 txId)

/-- NunchukWalletDb::UpdatePsbt (part_002 lines 590-602): rewrite the VALUE
of the draft row (HEIGHT = -1) with this id. -/
def walletUpdatePsbt (w : WalletDbState) (psbt : TxPayload) :
    WalletDbState × Bool :=
  let txId := psbt.txid
  let matched := w.vtx.filter (fun r => r.id = txId && r.height = -1)
  let rows' := w.vtx.map (fun r =>
    if r.id = txId && r.height = -1 then { r with value := psbt } else r)
  ({ w with vtx := rows' }, matched.length = 1)

/-- NunchukWalletDb::UpdatePsbtTxId (part_002 lines 604-642): copy the draft
row to the new id, then delete the old row (copy-then-delete, never an
in-place rename); a missing draft raises TX_NOT_FOUND. -/
def walletUpdatePsbtTxId (w : WalletDbState) (oldId newId : String) :
    WalletDbState × Except NunchukErr Bool :=
  match w.vtx.find? (fun r => r.id = oldId && r.height = -1) with
  | some row =>
      let w1 :=
        if w.vtx.any (fun r => r.id = newId) then w
        else { w with vtx := w.vtx ++
          [⟨newId, row.value, -1, row.fee, row.memo, row.changePos, 0, row.extra⟩] }
      let (w2, b) := walletDeleteTransaction w1 oldId
      (w2, Except.ok b)
  | none => (w, Except.error NunchukErr.TX_NOT_FOUND)

/-- NunchukWalletDb::UpdateTransactionMemo (part_002 lines 542-553). -/
def walletUpdateTransactionMemo (w : WalletDbState) (txId memo : String) :
    WalletDbState × Bool :=
  let matched := w.vtx.filter (fun r => r.id = txId)
  let rows' := w.vtx.map (fun r => if r.id = txId then { r with memo := memo } else r)
  ({ w with vtx := rows' }, matched.length = 1)

/-- NunchukWalletDb::SetName / SetDescription (part_002 lines 276-282). -/
def walletSetName (w : WalletDbState) (value : String) : WalletDbState × Bool :=
  let (kv, b) := putString w.kv DbKeys.NAME value
  ({ w with kv := kv }, b)

/-- The wallet-store mutations the storage facade performs on an opened
wallet store. -/
inductive WalletOp
  | addAddress (addr : String) (idx : Int) (internal : Bool)
  | useAddress (addr : String)
  | setUtxos (addr : String) (items : List UtxoItem)
  | insertTx (rawTx : TxPayload) (height blocktime fee : Int) (memo : String)
      (changePos : Int)
  | updateTx (rawTx : TxPayload) (height blocktime : Int) (rejectMsg : String)
  | deleteTx (txId : String)
  | createPsbt (psbt : TxPayload) (fee : Int) (memo : String) (changePos : Int)
      (outputsAmt : List (String × Int)) (feeRate : Int) (subtract : Bool)
      (replaceTx : Option String)
  | updatePsbt (psbt : TxPayload)
  | updatePsbtTxId (oldId newId : String)
  | updateTxMemo (txId memo : String)
  | addSigner (signer : SingleSigner)
  | setName (value : String)

/-- Apply one wallet-store mutation, discarding its result value. -/
def applyWalletOp (w : WalletDbState) : WalletOp → WalletDbState
  | WalletOp.addAddress a i int => (walletAddAddress w a i int).1
  | WalletOp.useAddress a => (walletUseAddress w a).1
  | WalletOp.setUtxos a items => (walletSetUtxos w a items).1
  | WalletOp.insertTx tx h bt fee memo cp => (walletInsertTransaction w tx h bt fee memo cp).1
  | WalletOp.updateTx tx h bt rej => (walletUpdateTransaction w tx h bt rej).1
  | WalletOp.deleteTx txId => (walletDeleteTransaction w txId).1
  | WalletOp.createPsbt p fee memo cp oa fr sub rep =>
      (walletCreatePsbt w p fee memo cp oa fr sub rep).1
  | WalletOp.updatePsbt p => (walletUpdatePsbt w p).1
  | WalletOp.updatePsbtTxId o n2 => (walletUpdatePsbtTxId w o n2).1
  | WalletOp.updateTxMemo t m2 => (walletUpdateTransactionMemo w t m2).1
  | WalletOp.addSigner s => (walletAddSigner w s).1
  | WalletOp.setName v => (walletSetName w v).1

/-- Apply a sequence of wallet-store mutations left to right. -/
def applyWalletOps (w : WalletDbState) (ops : List WalletOp) : WalletDbState :=
  ops.foldl applyWalletOp w

/-- The signer-store mutations the storage facade performs on an opened
signer store. -/
inductive SignerOp
  | addXPubCustom (s : String) (xpub : String)
  | addXPubIndex (wt : WalletType) (adt : AddressType) (index : Int) (xpub : String)
  | useIndex (wt : WalletType) (adt : AddressType) (index : Int)
  | addRemote (name xpub pubkey : String) (path : Bip32Path) (used : Bool)
  | useRemote (path : Bip32Path)
  | deleteRemote (path : Bip32Path)
  | setName (value : String)
  | setLastHealthCheck (value : Int)

/-- Apply one signer-store mutation, discarding its result value.  The
custom AddXPub form is the bookkeeping-path caching of
CacheMasterSignerXPub, stored under the tag custom. -/
def applySignerOp (s : SignerDbState) : SignerOp → SignerDbState
  | SignerOp.addXPubCustom p xpub => (signerAddXPubPath s (Bip32Path.custom p) xpub "custom").1
  | SignerOp.addXPubIndex wt adt i xpub => (signerAddXPubIndex s wt adt i xpub).1
  | SignerOp.useIndex wt adt i => (signerUseIndex s wt adt i).1
  | SignerOp.addRemote n x p path u => (signerAddRemote s n x p path u).1
  | SignerOp.useRemote path => (signerUseRemote s path).1
  | SignerOp.deleteRemote path => (signerDeleteRemoteSigner s path).1
  | SignerOp.setName v => (signerSetName s v).1
  | SignerOp.setLastHealthCheck v => (signerSetLastHealthCheck s v).1

/-- Apply a sequence of signer-store mutations left to right. -/
def applySignerOps (s : SignerDbState) (ops : List SignerOp) : SignerDbState :=
  ops.foldl applySignerOp s

/-- The derived-key cache entry of index i of a bucket is allocated: such a
row exists and every row at its canonical path is non-UNALLOCATED. -/
def idxAllocatedInv (c : Chain) (w : WalletType) (a : AddressType) (i : Int)
    (s : SignerDbState) : Prop :=
  (∃ r ∈ s.bip32Rows, r.path = GetBip32Path c w a i ∧ r.used ≠ -1) ∧
  (∀ r ∈ s.bip32Rows, r.path = GetBip32Path c w a i → r.used ≠ -1)

/-- Every cache row tagged with a bucket carries the canonical path of that
bucket (the invariant maintained by the AddXPub overload resolving paths
via the derivation utility). -/
def bucketCanonicalInv (c : Chain) (w : WalletType) (a : AddressType)
    (s : SignerDbState) : Prop :=
  ∀ r ∈ s.bip32Rows, r.type = GetBip32Type w a →
    ∃ j, r.path = GetBip32Path c w a j

/-- An address of the wallet ledger is used: such a row exists and every row
of that address has the flag set. -/
def addrUsedInv (a : String) (w : WalletDbState) : Prop :=
  (∃ r ∈ w.addresses, r.addr = a ∧ r.used = true) ∧
  (∀ r ∈ w.addresses, r.addr = a → r.used = true)

/-- The persisted key of a wallet SIGNER row. -/
def walletSignerRowKey (r : WalletSignerRow) :
    String × String × Bip32Path × String :=
  (r.keyXpub, r.keyPublicKey, r.keyDerivationPath, r.keyMasterFingerprint)

/-- The SIGNER row AddSigner writes for a signer slot. -/
def walletSignerRowOf (s : SingleSigner) : WalletSignerRow :=
  ⟨s.xpub, s.publicKey, s.derivationPath, strToLower s.masterFingerprint,
   s.name, strToLower s.masterSignerId, s.lastHealthCheck⟩

/-- The signer slot GetSigners reads back after a round trip through the
SIGNER table: the master fingerprint and master signer id come back
lower-cased, the used flag comes back false. -/
def persistedSigner (s : SingleSigner) : SingleSigner :=
  ⟨s.name, s.xpub, s.publicKey, s.derivationPath,
   strToLower (strToLower s.masterFingerprint), s.lastHealthCheck,
   strToLower s.masterSignerId, false⟩

/-- The ledger shape of an address row: everything except the used flag. -/
def addrShape (r : AddressRow) : String × Int × Bool × Option (List UtxoItem) :=
  (r.addr, r.idx, r.internal, r.utxo)

/-- The manually injected pending change outputs: the first-pass push of
GetUnspentOutputs (part_002 lines 789-812), one UnspentOutput per output of
a height-0 transaction paying a change address (GetAddresses(false, true)),
carried out regardless of the locked set. -/
def injectedChangeOutputs (w : WalletDbState) : List UnspentOutput :=
  let txs := walletGetTransactions w
  let changeAddrs := walletGetAddresses w false true
  (txs.filter (fun t => t.height = 0)).flatMap (fun t =>
    (changeOutputsOf changeAddrs t).map (fun e =>
      ⟨t.txid, Int.ofNat e.1, e.2.1, e.2.2, t.height, t.memo⟩))

/-- The snapshot pass of GetUnspentOutputs (part_002 lines 821-859): every
persisted UTXO item whose (txid, vout) key the completed locked set does
not contain. -/
def snapshotOutputs (w : WalletDbState) (removeLocked : Bool) :
    List UnspentOutput :=
  let txs := walletGetTransactions w
  let changeAddrs := walletGetAddresses w false true
  let pending := txs.filter (fun t => t.height = 0)
  let lockedChange : List (String × Int) := pending.flatMap (fun t =>
    (changeOutputsOf changeAddrs t).map (fun e => (t.txid, Int.ofNat e.1)))
  let lockedInputs : List (String × Int) :=
    if removeLocked then pending.flatMap (fun t => t.inputs) else []
  let locked := lockedChange ++ lockedInputs
  w.addresses.flatMap (fun a =>
    match a.utxo with
    | none => []
    | some items => items.filterMap (fun it =>
        if locked.contains (it.txid, it.vout) then none
        else some ⟨it.txid, it.vout, a.addr, it.amount,
                   heightMapLookup txs it.txid, memoMapLookup txs it.txid⟩))

/-- A wallet state exercising the change-injection pass: the internal unused
address c holds a backend snapshot with the change output (A, 0) of the
pending transaction A, and the pending transaction B spends (A, 0). -/
def cexWallet : WalletDbState :=
  ⟨"w", NunchukDbState.empty,
   [⟨"A", ⟨"A", [("x", 0)], [("c", 10)], []⟩, 0, 0, "", 0, 0, ExtraData.empty⟩,
    ⟨"B", ⟨"B", [("A", 0)], [], []⟩, 0, 0, "", 0, 0, ExtraData.empty⟩],
   [⟨"c", 0, true, false, some [⟨"A", 0, 10⟩]⟩], []⟩

/-- A wallet state where the snapshot output (C, 0) at the external address
r coexists with a pending transaction B spending the unrelated (D, 0). -/
def witWallet : WalletDbState :=
  ⟨"w", NunchukDbState.empty,
   [⟨"B", ⟨"B", [("D", 0)], [], []⟩, 0, 0, "", 0, 0, ExtraData.empty⟩],
   [⟨"r", 0, false, false, some [⟨"C", 0, 7⟩]⟩], []⟩

/-! ## Theorems

Shared list lemmas first, then one theorem per claim (with witnesses for
theorems carrying hypotheses, and counterexamples for corrected claims). -/

theorem find_upsert (l : List (Int × α)) (k : Int) (v : α) :
    (upsert l k v).find? (fun e => decide (e.1 = k)) = some (k, v) := by
  unfold upsert
  by_cases h : l.any (fun e => decide (e.1 = k))
  · simp only [h, if_true]
    induction l with
    | nil => simp at h
    | cons e es ih =>
      by_cases he : e.1 = k
      · simp [List.find?, he]
      · have h' : es.any (fun e => decide (e.1 = k)) := by
          simp [List.any_cons, he] at h
          simpa using h
        simp only [List.map_cons, if_neg he]
        rw [List.find?_cons_of_neg _ (by simpa using he)]
        exact ih h'
  · simp only [h, if_false, Bool.false_eq_true]
    induction l with
    | nil => simp [List.find?]
    | cons e es ih =>
      have he : ¬ e.1 = k := by
        intro hk
        exact h (by simp [List.any_cons, hk])
      have h' : ¬ es.any (fun e => decide (e.1 = k)) = true := by
        intro hk
        exact h (by simp [List.any_cons, hk])
      rw [List.cons_append, List.find?_cons_of_neg _ (by simpa using he)]
      exact ih h'

theorem keyCount_pos_of_any (l : List (Int × α)) (k : Int)
    (h : l.any (fun e => decide (e.1 = k)) = true) : 1 ≤ keyCount l k := by
  rcases List.any_eq_true.mp h with ⟨x, hx, hpx⟩
  have : x ∈ l.filter (fun e => decide (e.1 = k)) := List.mem_filter.mpr ⟨hx, hpx⟩
  have : 0 < (l.filter (fun e => decide (e.1 = k))).length :=
    List.length_pos.mpr (List.ne_nil_of_mem this)
  simpa [keyCount] using this

/-- C7 counterexample: with the value v already stored under key 5,
PutString(5, v) returns true, although the claim requires false when the
written value is identical to the stored one. -/
theorem putString_identical_value_returns_true :
    getString ⟨[((5 : Int), "v")], []⟩ 5 = "v" ∧
    (putString ⟨[((5 : Int), "v")], []⟩ 5 "v").2 = true := by
  decide

/-- C7 (amended): PutString and PutInt have insert-or-update semantics for
every key and value, but their boolean result only reflects that the upsert
wrote a row, which in a store whose key is unique is always the case;
SQLite counts an UPDATE that rewrites the stored value unchanged, so writing
an identical value also returns true. -/
theorem putString_putInt_upsert (s : NunchukDbState) (k : Int) (v : String)
    (n : Int) (hs : keyCount s.vstr k ≤ 1) (hi : keyCount s.vint k ≤ 1) :
    (putString s k v).2 = true ∧ getString (putString s k v).1 k = v ∧
    (putInt s k n).2 = true ∧ getInt (putInt s k n).1 k = n := by
  refine ⟨?_, ?_, ?_, ?_⟩
  · simp only [putString]
    by_cases h : s.vstr.any (fun e => decide (e.1 = k))
    · have h1 := keyCount_pos_of_any s.vstr k h
      have h2 : keyCount s.vstr k = 1 := le_antisymm hs h1
      simp [h, h2]
    · simp [h]
  · simp [putString, getString, find_upsert]
  · simp only [putInt]
    by_cases h : s.vint.any (fun e => decide (e.1 = k))
    · have h1 := keyCount_pos_of_any s.vint k h
      have h2 : keyCount s.vint k = 1 := le_antisymm hi h1
      simp [h, h2]
    · simp [h]
  · simp [putInt, getInt, find_upsert]

/-- C7 witness: the amended theorem applied at a concrete store holding
key 1 with value a and key 2 with value 3. -/
theorem putString_putInt_upsert_witness :
    keyCount [((1 : Int), "a")] 1 ≤ 1 ∧ keyCount [((2 : Int), (3 : Int))] 1 ≤ 1 ∧
    ((putString ⟨[(1, "a")], [(2, 3)]⟩ 1 "a").2 = true ∧
     getString (putString ⟨[(1, "a")], [(2, 3)]⟩ 1 "a").1 1 = "a" ∧
     (putInt ⟨[(1, "a")], [(2, 3)]⟩ 1 7).2 = true ∧
     getInt (putInt ⟨[(1, "a")], [(2, 3)]⟩ 1 7).1 1 = 7) :=
  ⟨by decide, by decide,
   putString_putInt_upsert ⟨[(1, "a")], [(2, 3)]⟩ 1 "a" 7 (by decide) (by decide)⟩

theorem addrUsedInv_of_eq (w v : WalletDbState) (a : String)
    (h : v.addresses = w.addresses) (hw : addrUsedInv a w) : addrUsedInv a v := by
  unfold addrUsedInv at *
  rw [h]
  exact hw

theorem addrUsedInv_useAddress (w : WalletDbState) (a x : String)
    (h : addrUsedInv a w) : addrUsedInv a (walletUseAddress w x).1 := by
  obtain ⟨⟨r0, hr0, ha0, hu0⟩, hall⟩ := h
  by_cases hx : x = ""
  · simp only [walletUseAddress, hx, if_pos]
    exact ⟨⟨r0, hr0, ha0, hu0⟩, hall⟩
  · simp only [walletUseAddress, hx, if_neg, not_false_iff]
    constructor
    · refine ⟨if r0.addr = x then { r0 with used := true } else r0,
        List.mem_map.mpr ⟨r0, hr0, rfl⟩, ?_⟩
      by_cases hr : r0.addr = x
      · rw [if_pos hr]
        exact ⟨ha0, rfl⟩
      · rw [if_neg hr]
        exact ⟨ha0, hu0⟩
    · intro r' hr'
      obtain ⟨r, hr, hfr⟩ := List.mem_map.mp hr'
      by_cases h1 : r.addr = x
      · simp only [h1, if_pos] at hfr
        subst hfr
        intro _
        rfl
      · simp only [h1, if_neg, not_false_iff] at hfr
        subst hfr
        exact hall r hr

theorem addrUsedInv_useOutputs (a : String) (outs : List (String × Int)) :
    ∀ w : WalletDbState, addrUsedInv a w →
      addrUsedInv a (walletUseOutputAddresses w outs) := by
  induction outs with
  | nil => intro w h; simpa [walletUseOutputAddresses] using h
  | cons o os ih =>
      intro w h
      have h1 := addrUsedInv_useAddress w a o.1 h
      simpa [walletUseOutputAddresses] using ih _ h1

theorem addrUsedInv_setUtxos (w : WalletDbState) (a x : String)
    (items : List UtxoItem) (h : addrUsedInv a w) :
    addrUsedInv a (walletSetUtxos w x items).1 := by
  obtain ⟨⟨r0, hr0, ha0, hu0⟩, hall⟩ := h
  simp only [walletSetUtxos]
  constructor
  · refine ⟨if r0.addr = x then { r0 with utxo := some items } else r0,
      List.mem_map.mpr ⟨r0, hr0, rfl⟩, ?_⟩
    by_cases hr : r0.addr = x
    · rw [if_pos hr]
      exact ⟨ha0, hu0⟩
    · rw [if_neg hr]
      exact ⟨ha0, hu0⟩
  · intro r' hr'
    obtain ⟨r, hr, hfr⟩ := List.mem_map.mp hr'
    by_cases h1 : r.addr = x
    · simp only [h1, if_pos] at hfr
      subst hfr
      intro hra
      refine hall r hr ?_
      rw [h1]
      exact hra
    · simp only [h1, if_neg, not_false_iff] at hfr
      subst hfr
      exact hall r hr

theorem addrUsedInv_addAddress (w : WalletDbState) (a x : String) (i : Int)
    (int : Bool) (h : addrUsedInv a w) :
    addrUsedInv a (walletAddAddress w x i int).1 := by
  by_cases hc : w.addresses.any (fun r => r.addr = x)
  · exact addrUsedInv_of_eq _ _ _ (by simp [walletAddAddress, hc]) h
  · obtain ⟨⟨r0, hr0, ha0, hu0⟩, hall⟩ := h
    have hxa : ¬ x = a := by
      intro hxa
      subst hxa
      exact hc (List.any_eq_true.mpr ⟨r0, hr0, by simp [ha0]⟩)
    simp only [walletAddAddress, hc, if_neg, not_false_iff, Bool.false_eq_true]
    refine ⟨⟨r0, List.mem_append_left _ hr0, ha0, hu0⟩, ?_⟩
    intro r hr
    rcases List.mem_append.mp hr with hr | hr
    · exact hall r hr
    · intro hra
      simp only [List.mem_singleton] at hr
      subst hr
      exact absurd hra hxa

theorem addrUsedInv_insertTx (w : WalletDbState) (a : String)
    (rawTx : TxPayload) (height blocktime fee : Int) (memo : String)
    (cp : Int) (h : addrUsedInv a w) :
    addrUsedInv a (walletInsertTransaction w rawTx height blocktime fee memo cp).1 := by
  unfold walletInsertTransaction
  simp only []
  set w1 := if w.vtx.any (fun r => r.id = rawTx.txid) then w
    else { w with vtx := w.vtx ++
      [⟨rawTx.txid, rawTx, height, fee, memo, cp, blocktime, ExtraData.empty⟩] }
    with hw1
  have h1 : addrUsedInv a w1 := addrUsedInv_of_eq _ _ _ (by rw [hw1]; split <;> rfl) h
  cases hm : walletGetTransaction w1 rawTx.txid with
  | ok tx =>
      simp only [hm]
      by_cases hh : height > 0
      · simpa [hh] using addrUsedInv_useOutputs a tx.outputs w1 h1
      · simpa [hh] using h1
  | error e => simpa [hm] using h1

theorem updateTxStage1_addresses (w : WalletDbState) (rawTx : TxPayload)
    (height blocktime : Int) (rej : String) :
    (updateTxStage1 w rawTx height blocktime rej).1.addresses = w.addresses := by
  simp only [updateTxStage1]
  by_cases hh : height ≤ 0
  · simp only [hh, if_pos]
    cases hp : w.vtx.find? (fun r => r.id = rawTx.txid && r.height = -1) with
    | none => rfl
    | some row =>
        cases hrt : row.extra.replaceTxid with
        | none => simp [hrt]
        | some old => simp [hrt, walletSetReplacedBy]
  · simp only [hh, if_neg, not_false_iff]

theorem addrUsedInv_updateTx (w : WalletDbState) (a : String)
    (rawTx : TxPayload) (height blocktime : Int) (rej : String)
    (h : addrUsedInv a w) :
    addrUsedInv a (walletUpdateTransaction w rawTx height blocktime rej).1 := by
  unfold walletUpdateTransaction
  by_cases h0 : height = -1
  · simpa [h0] using h
  · simp only [h0, if_neg, not_false_iff]
    have h2 : addrUsedInv a (updateTxStage1 w rawTx height blocktime rej).1 :=
      addrUsedInv_of_eq _ _ _ (updateTxStage1_addresses w rawTx height blocktime rej) h
    cases he : updateTxStage1 w rawTx height blocktime rej with
    | mk w2 updated =>
        rw [he] at h2
        by_cases hcond : updated = true ∧ height > 0
        · simp only [hcond.1, hcond.2, and_self, if_pos, true_and]
          cases hm : walletGetTransaction w2 rawTx.txid with
          | ok tx => simpa [hm, hcond.1, hcond.2] using
              addrUsedInv_useOutputs a tx.outputs w2 h2
          | error e => simpa [hm, hcond.1, hcond.2] using h2
        · have : ¬ (updated = true ∧ height > 0) := hcond
          simp only [this, if_neg, not_false_iff]
          exact h2

theorem addrUsedInv_applyOp (w : WalletDbState) (a : String) (op : WalletOp)
    (h : addrUsedInv a w) : addrUsedInv a (applyWalletOp w op) := by
  cases op with
  | addAddress x i int => exact addrUsedInv_addAddress w a x i int h
  | useAddress x => exact addrUsedInv_useAddress w a x h
  | setUtxos x items => exact addrUsedInv_setUtxos w a x items h
  | insertTx tx ht bt fee memo cp => exact addrUsedInv_insertTx w a tx ht bt fee memo cp h
  | updateTx tx ht bt rej => exact addrUsedInv_updateTx w a tx ht bt rej h
  | deleteTx txId =>
      exact addrUsedInv_of_eq _ _ _ (by simp [applyWalletOp, walletDeleteTransaction]) h
  | createPsbt p fee memo cp oa fr sub rep =>
      refine addrUsedInv_of_eq _ _ _ ?_ h
      simp only [applyWalletOp, walletCreatePsbt]
      split
      all_goals rfl
  | updatePsbt p =>
      exact addrUsedInv_of_eq _ _ _ (by simp [applyWalletOp, walletUpdatePsbt]) h
  | updatePsbtTxId o n2 =>
      refine addrUsedInv_of_eq _ _ _ ?_ h
      simp only [applyWalletOp, walletUpdatePsbtTxId]
      repeat' split
      all_goals simp [walletDeleteTransaction]
  | updateTxMemo t m2 =>
      exact addrUsedInv_of_eq _ _ _ (by simp [applyWalletOp, walletUpdateTransactionMemo]) h
  | addSigner s =>
      refine addrUsedInv_of_eq _ _ _ ?_ h
      simp only [applyWalletOp, walletAddSigner]
      split
      all_goals rfl
  | setName v =>
      exact addrUsedInv_of_eq _ _ _ (by simp [applyWalletOp, walletSetName, putString]) h

theorem addrUsedInv_applyOps (a : String) (ops : List WalletOp) :
    ∀ w : WalletDbState, addrUsedInv a w → addrUsedInv a (applyWalletOps w ops) := by
  induction ops with
  | nil => intro w h; simpa [applyWalletOps] using h
  | cons op rest ih =>
      intro w h
      simpa [applyWalletOps] using ih _ (addrUsedInv_applyOp w a op h)

/-- C4 counterexample: with the address a recorded in the ledger, the first
UseAddress returns true and a second UseAddress on the same address returns
true again, although the claim requires the second call to return false. -/
theorem useAddress_second_call_returns_true :
    (walletUseAddress
      (walletUseAddress
        ⟨"w", NunchukDbState.empty, [], [⟨"a", 0, false, false, none⟩], []⟩
        "a").1 "a").2 = true ∧
    (walletUseAddress
      ⟨"w", NunchukDbState.empty, [], [⟨"a", 0, false, false, none⟩], []⟩
      "a").2 = true := by
  constructor
  · decide
  · decide

/-- C4 (amended): for an address recorded once in the ledger, the first
UseAddress call returns true; a second call on the same address is a state
no-op but returns true again rather than false, because the UPDATE matches
the row whether or not the flag changes; and the used flag never reverts to
false under any subsequent sequence of wallet-store mutations. -/
theorem useAddress_idempotent_state (w : WalletDbState) (a : String)
    (ha : ¬ a = "")
    (h1 : (w.addresses.filter (fun r => r.addr = a)).length = 1) :
    (walletUseAddress w a).2 = true ∧
    walletUseAddress (walletUseAddress w a).1 a = ((walletUseAddress w a).1, true) ∧
    ∀ ops : List WalletOp,
      addrUsedInv a (applyWalletOps (walletUseAddress w a).1 ops) := by
  have hne : w.addresses.filter (fun r => decide (r.addr = a)) ≠ [] := by
    intro hnil
    rw [hnil] at h1
    simp at h1
  obtain ⟨r0, hr0f⟩ := List.exists_mem_of_ne_nil _ hne
  obtain ⟨hr0, hr0a⟩ := List.mem_filter.mp hr0f
  have hr0a : r0.addr = a := by simpa using hr0a
  have hpf : ((fun r : AddressRow => decide (r.addr = a)) ∘
      (fun r : AddressRow => if r.addr = a then { r with used := true } else r)) =
      (fun r : AddressRow => decide (r.addr = a)) := by
    funext r
    by_cases hr : r.addr = a <;> simp [Function.comp, hr]
  have hff : ∀ l : List AddressRow,
      (l.map (fun r => if r.addr = a then { r with used := true } else r)).map
        (fun r => if r.addr = a then { r with used := true } else r) =
      l.map (fun r => if r.addr = a then { r with used := true } else r) := by
    intro l
    rw [List.map_map]
    refine List.map_congr_left ?_
    intro r _
    by_cases hr : r.addr = a <;> simp [hr]
  have hinv : addrUsedInv a (walletUseAddress w a).1 := by
    simp only [walletUseAddress, ha, if_neg, not_false_iff]
    constructor
    · refine ⟨{ r0 with used := true }, ?_, hr0a, rfl⟩
      exact List.mem_map.mpr ⟨r0, hr0, by simp [hr0a]⟩
    · intro r' hr'
      obtain ⟨r, hr, hfr⟩ := List.mem_map.mp hr'
      by_cases hc : r.addr = a
      · simp only [hc, if_pos] at hfr
        subst hfr
        intro _
        rfl
      · simp only [hc, if_neg, not_false_iff] at hfr
        subst hfr
        intro hca
        exact absurd hca hc
  refine ⟨?_, ?_, ?_⟩
  · simp only [walletUseAddress, ha, if_neg, not_false_iff]
    simpa using h1
  · simp only [walletUseAddress, ha, if_neg, not_false_iff, Prod.mk.injEq]
    constructor
    · rw [hff w.addresses]
    · simp only [decide_eq_true_eq]
      rw [← List.countP_eq_length_filter, List.countP_map, hpf,
        List.countP_eq_length_filter]
      simpa using h1
  · intro ops
    exact addrUsedInv_applyOps a ops _ hinv

/-- C4 witness: the amended theorem applied at a ledger holding the single
address a. -/
theorem useAddress_idempotent_state_witness :
    (¬ "a" = "") ∧
    (((⟨"w", NunchukDbState.empty, [], [⟨"a", 0, false, false, none⟩], []⟩ :
        WalletDbState).addresses.filter (fun r => r.addr = "a")).length = 1) ∧
    ((walletUseAddress
        ⟨"w", NunchukDbState.empty, [], [⟨"a", 0, false, false, none⟩], []⟩
        "a").2 = true ∧
     walletUseAddress
        (walletUseAddress
          ⟨"w", NunchukDbState.empty, [], [⟨"a", 0, false, false, none⟩], []⟩
          "a").1 "a" =
        ((walletUseAddress
          ⟨"w", NunchukDbState.empty, [], [⟨"a", 0, false, false, none⟩], []⟩
          "a").1, true) ∧
     ∀ ops : List WalletOp,
       addrUsedInv "a" (applyWalletOps
         (walletUseAddress
           ⟨"w", NunchukDbState.empty, [], [⟨"a", 0, false, false, none⟩], []⟩
           "a").1 ops)) :=
  ⟨by decide, by decide,
   useAddress_idempotent_state
     ⟨"w", NunchukDbState.empty, [], [⟨"a", 0, false, false, none⟩], []⟩
     "a" (by decide) (by decide)⟩

theorem getBip32Type_inj (w w' : WalletType) (a a' : AddressType)
    (h : GetBip32Type w a = GetBip32Type w' a') : w = w' ∧ a = a' := by
  revert h
  cases w <;> cases a <;> cases w' <;> cases a' <;> decide

theorem getBip32Type_ne_custom (w : WalletType) (a : AddressType) :
    ¬ "custom" = GetBip32Type w a := by
  cases w <;> cases a <;> decide

theorem signerInvs_of_eq (c : Chain) (w : WalletType) (a : AddressType)
    (i : Int) (s s' : SignerDbState) (hr : s'.bip32Rows = s.bip32Rows)
    (hc : s'.chain = c) (h1 : idxAllocatedInv c w a i s)
    (h2 : bucketCanonicalInv c w a s) :
    s'.chain = c ∧ idxAllocatedInv c w a i s' ∧ bucketCanonicalInv c w a s' := by
  unfold idxAllocatedInv bucketCanonicalInv at *
  rw [hr]
  exact ⟨hc, h1, h2⟩

theorem signerInvs_addXPubPath (c : Chain) (w : WalletType) (a : AddressType)
    (i : Int) (s : SignerDbState) (p : Bip32Path) (xpub type : String)
    (hc : s.chain = c)
    (hpt : type = GetBip32Type w a → ∃ j, p = GetBip32Path c w a j)
    (h1 : idxAllocatedInv c w a i s) (h2 : bucketCanonicalInv c w a s) :
    (signerAddXPubPath s p xpub type).1.chain = c ∧
    idxAllocatedInv c w a i (signerAddXPubPath s p xpub type).1 ∧
    bucketCanonicalInv c w a (signerAddXPubPath s p xpub type).1 := by
  obtain ⟨⟨r0, hr0, hp0, hu0⟩, hall⟩ := h1
  by_cases hany : s.bip32Rows.any (fun r => r.path = p)
  · simp only [signerAddXPubPath, hany, if_pos]
    refine ⟨hc, ⟨⟨{ r0 with xpub := if r0.path = p then xpub else r0.xpub }, ?_, ?_⟩, ?_⟩, ?_⟩
    · refine List.mem_map.mpr ⟨r0, hr0, ?_⟩
      by_cases hr : r0.path = p <;> simp [hr]
    · exact ⟨hp0, hu0⟩
    · intro r' hr'
      obtain ⟨r, hr, hfr⟩ := List.mem_map.mp hr'
      by_cases hcnd : r.path = p
      · simp only [hcnd, if_pos] at hfr
        subst hfr
        intro hrp
        exact hall r hr (hcnd.trans hrp)
      · simp only [hcnd, if_neg, not_false_iff] at hfr
        subst hfr
        exact hall r hr
    · intro r' hr' ht
      obtain ⟨r, hr, hfr⟩ := List.mem_map.mp hr'
      by_cases hcnd : r.path = p
      · simp only [hcnd, if_pos] at hfr
        subst hfr
        obtain ⟨j, hj⟩ := h2 r hr ht
        refine ⟨j, ?_⟩
        rw [← hcnd]
        exact hj
      · simp only [hcnd, if_neg, not_false_iff] at hfr
        subst hfr
        exact h2 r hr ht
  · simp only [signerAddXPubPath, hany, if_neg, not_false_iff, Bool.false_eq_true]
    refine ⟨hc, ⟨⟨r0, ?_, hp0, hu0⟩, ?_⟩, ?_⟩
    · simp only [SignerDbState.bip32Rows, Option.getD_some]
      exact List.mem_append_left _ hr0
    · intro r hr hrp
      have hr : r ∈ s.bip32Rows ++ [⟨p, xpub, type, -1⟩] := by
        simpa [SignerDbState.bip32Rows] using hr
      rcases List.mem_append.mp hr with hr | hr
      · exact hall r hr hrp
      · simp only [List.mem_singleton] at hr
        subst hr
        exfalso
        exact hany (List.any_eq_true.mpr ⟨r0, hr0, by simp [hp0, ← hrp]⟩)
    · intro r hr ht
      have hr : r ∈ s.bip32Rows ++ [⟨p, xpub, type, -1⟩] := by
        simpa [SignerDbState.bip32Rows] using hr
      rcases List.mem_append.mp hr with hr | hr
      · exact h2 r hr ht
      · simp only [List.mem_singleton] at hr
        subst hr
        exact hpt ht

theorem signerInvs_useIndex (c : Chain) (w w' : WalletType)
    (a a' : AddressType) (i j : Int) (s : SignerDbState) (hc : s.chain = c)
    (h1 : idxAllocatedInv c w a i s) (h2 : bucketCanonicalInv c w a s) :
    (signerUseIndex s w' a' j).1.chain = c ∧
    idxAllocatedInv c w a i (signerUseIndex s w' a' j).1 ∧
    bucketCanonicalInv c w a (signerUseIndex s w' a' j).1 := by
  obtain ⟨⟨r0, hr0, hp0, hu0⟩, hall⟩ := h1
  have hrows : (signerUseIndex s w' a' j).1.bip32Rows =
      s.bip32Rows.map (fun r =>
        if r.path = GetBip32Path s.chain w' a' j ∧ r.used = -1 then
          { r with used := 1 } else r) := by
    simp only [signerUseIndex, SignerDbState.bip32Rows]
    cases hb : s.bip32 with
    | none => simp [SignerDbState.bip32Rows, hb]
    | some rows => simp [SignerDbState.bip32Rows, hb]
  refine ⟨by simp [signerUseIndex, hc], ⟨⟨?_, ?_⟩, ?_⟩⟩
  · rw [hrows]
    refine ⟨if r0.path = GetBip32Path s.chain w' a' j ∧ r0.used = -1 then
        { r0 with used := 1 } else r0, List.mem_map.mpr ⟨r0, hr0, rfl⟩, ?_⟩
    by_cases hcnd : r0.path = GetBip32Path s.chain w' a' j ∧ r0.used = -1
    · rw [if_pos hcnd]
      exact ⟨hp0, show (1 : Int) ≠ -1 by decide⟩
    · rw [if_neg hcnd]
      exact ⟨hp0, hu0⟩
  · rw [hrows]
    intro r' hr'
    obtain ⟨r, hr, hfr⟩ := List.mem_map.mp hr'
    by_cases hcnd : r.path = GetBip32Path s.chain w' a' j ∧ r.used = -1
    · rw [if_pos hcnd] at hfr
      subst hfr
      intro hrp
      exact show (1 : Int) ≠ -1 by decide
    · rw [if_neg hcnd] at hfr
      subst hfr
      exact hall r hr
  · intro r' hr' ht
    rw [hrows] at hr'
    obtain ⟨r, hr, hfr⟩ := List.mem_map.mp hr'
    by_cases hcnd : r.path = GetBip32Path s.chain w' a' j ∧ r.used = -1
    · rw [if_pos hcnd] at hfr
      subst hfr
      exact h2 r hr ht
    · rw [if_neg hcnd] at hfr
      subst hfr
      exact h2 r hr ht

theorem signerInvs_applyOp (c : Chain) (w : WalletType) (a : AddressType)
    (i : Int) (s : SignerDbState) (op : SignerOp) (hc : s.chain = c)
    (h1 : idxAllocatedInv c w a i s) (h2 : bucketCanonicalInv c w a s) :
    (applySignerOp s op).chain = c ∧
    idxAllocatedInv c w a i (applySignerOp s op) ∧
    bucketCanonicalInv c w a (applySignerOp s op) := by
  cases op with
  | addXPubCustom p xpub =>
      exact signerInvs_addXPubPath c w a i s (Bip32Path.custom p) xpub "custom"
        hc (fun h => absurd h (getBip32Type_ne_custom w a)) h1 h2
  | addXPubIndex w' a' j xpub =>
      refine signerInvs_addXPubPath c w a i s (GetBip32Path s.chain w' a' j)
        xpub (GetBip32Type w' a') hc ?_ h1 h2
      intro ht
      obtain ⟨hw, ha⟩ := getBip32Type_inj w' w a' a ht
      subst hw
      subst ha
      exact ⟨j, by rw [hc]⟩
  | useIndex w' a' j => exact signerInvs_useIndex c w w' a a' i j s hc h1 h2
  | addRemote n x pk path u =>
      refine signerInvs_of_eq c w a i s _ ?_ ?_ h1 h2
      · simp only [applySignerOp, signerAddRemote, signerInitRemote,
          SignerDbState.bip32Rows]
        split <;> rfl
      · simp only [applySignerOp, signerAddRemote, signerInitRemote]
        split <;> exact hc
  | useRemote path =>
      exact signerInvs_of_eq c w a i s _ (by simp [applySignerOp, signerUseRemote,
        SignerDbState.bip32Rows]) (by simp [applySignerOp, signerUseRemote, hc]) h1 h2
  | deleteRemote path =>
      exact signerInvs_of_eq c w a i s _ (by simp [applySignerOp,
        signerDeleteRemoteSigner, SignerDbState.bip32Rows])
        (by simp [applySignerOp, signerDeleteRemoteSigner, hc]) h1 h2
  | setName v =>
      exact signerInvs_of_eq c w a i s _ (by simp [applySignerOp, signerSetName,
        SignerDbState.bip32Rows]) (by simp [applySignerOp, signerSetName, hc]) h1 h2
  | setLastHealthCheck v =>
      exact signerInvs_of_eq c w a i s _ (by simp [applySignerOp,
        signerSetLastHealthCheck, SignerDbState.bip32Rows])
        (by simp [applySignerOp, signerSetLastHealthCheck, hc]) h1 h2

theorem signerInvs_applyOps (c : Chain) (w : WalletType) (a : AddressType)
    (i : Int) (ops : List SignerOp) :
    ∀ s : SignerDbState, s.chain = c → idxAllocatedInv c w a i s →
      bucketCanonicalInv c w a s →
      (applySignerOps s ops).chain = c ∧
      idxAllocatedInv c w a i (applySignerOps s ops) ∧
      bucketCanonicalInv c w a (applySignerOps s ops) := by
  induction ops with
  | nil => intro s hc h1 h2; exact ⟨hc, h1, h2⟩
  | cons op rest ih =>
      intro s hc h1 h2
      obtain ⟨hc', h1', h2'⟩ := signerInvs_applyOp c w a i s op hc h1 h2
      simpa [applySignerOps] using ih (applySignerOp s op) hc' h1' h2'

/-- C3: UseIndex semantics and allocation monotonicity.  With p the
canonical path of index i of the bucket (w, a): (0) with exactly one
UNALLOCATED row at p, UseIndex returns true; (1) when every row at p is
already allocated, or no row at p exists, UseIndex returns false; (2) a
successful UseIndex leaves the entry of index i allocated; (3) under the
bucket-canonical well-formedness invariant, after a successful UseIndex no
sequence of further signer-store operations can make GetUnusedIndex of that
bucket return i again. -/
theorem useIndex_allocation_monotonic (s : SignerDbState) (w : WalletType)
    (a : AddressType) (i : Int) (hi : 0 ≤ i) :
    ((s.bip32Rows.filter (fun r =>
        r.path = GetBip32Path s.chain w a i && r.used = -1)).length = 1 →
      (signerUseIndex s w a i).2 = true) ∧
    ((∀ r ∈ s.bip32Rows, r.path = GetBip32Path s.chain w a i → r.used ≠ -1) →
      (signerUseIndex s w a i).2 = false) ∧
    ((signerUseIndex s w a i).2 = true →
      idxAllocatedInv s.chain w a i (signerUseIndex s w a i).1) ∧
    ((signerUseIndex s w a i).2 = true →
      bucketCanonicalInv s.chain w a s →
      ∀ ops : List SignerOp,
        signerGetUnusedIndex (applySignerOps (signerUseIndex s w a i).1 ops) w a ≠ i) := by
  have hchain : (signerUseIndex s w a i).1.chain = s.chain := by
    simp [signerUseIndex]
  have hrows : (signerUseIndex s w a i).1.bip32Rows =
      s.bip32Rows.map (fun r =>
        if r.path = GetBip32Path s.chain w a i ∧ r.used = -1 then
          { r with used := 1 } else r) := by
    simp only [signerUseIndex, SignerDbState.bip32Rows]
    cases hb : s.bip32 with
    | none => simp [SignerDbState.bip32Rows, hb]
    | some rows => simp [SignerDbState.bip32Rows, hb]
  have halloc : (signerUseIndex s w a i).2 = true →
      idxAllocatedInv s.chain w a i (signerUseIndex s w a i).1 := by
    intro hok
    have hlen : (s.bip32Rows.filter (fun r =>
        r.path = GetBip32Path s.chain w a i && r.used = -1)).length = 1 := by
      simpa [signerUseIndex] using hok
    have hne : s.bip32Rows.filter (fun r =>
        r.path = GetBip32Path s.chain w a i && r.used = -1) ≠ [] := by
      intro hnil
      rw [hnil] at hlen
      simp at hlen
    obtain ⟨r0, hr0f⟩ := List.exists_mem_of_ne_nil _ hne
    obtain ⟨hr0, hr0p⟩ := List.mem_filter.mp hr0f
    have hr0path : r0.path = GetBip32Path s.chain w a i := by
      have := hr0p
      simp only [Bool.and_eq_true, decide_eq_true_eq] at this
      exact this.1
    constructor
    · rw [hrows]
      refine ⟨{ r0 with used := 1 }, ?_, hr0path, show (1 : Int) ≠ -1 by decide⟩
      refine List.mem_map.mpr ⟨r0, hr0, ?_⟩
      have hr0u : r0.used = -1 := by
        have := hr0p
        simp only [Bool.and_eq_true, decide_eq_true_eq] at this
        exact this.2
      rw [if_pos ⟨hr0path, hr0u⟩]
    · rw [hrows]
      intro r' hr'
      obtain ⟨r, hr, hfr⟩ := List.mem_map.mp hr'
      by_cases hcnd : r.path = GetBip32Path s.chain w a i ∧ r.used = -1
      · rw [if_pos hcnd] at hfr
        subst hfr
        intro _
        exact show (1 : Int) ≠ -1 by decide
      · rw [if_neg hcnd] at hfr
        subst hfr
        intro hrp
        intro hru
        exact hcnd ⟨hrp, hru⟩
  refine ⟨?_, ?_, halloc, ?_⟩
  · intro h1
    simpa [signerUseIndex] using h1
  · intro hall
    have : s.bip32Rows.filter (fun r =>
        r.path = GetBip32Path s.chain w a i && r.used = -1) = [] := by
      rw [List.filter_eq_nil_iff]
      intro r hr
      simp only [Bool.and_eq_true, decide_eq_true_eq, not_and]
      intro hrp
      exact hall r hr hrp
    simp [signerUseIndex, this]
  · intro hok hcan ops
    have hcan1 : bucketCanonicalInv s.chain w a (signerUseIndex s w a i).1 := by
      intro r' hr' ht
      rw [hrows] at hr'
      obtain ⟨r, hr, hfr⟩ := List.mem_map.mp hr'
      by_cases hcnd : r.path = GetBip32Path s.chain w a i ∧ r.used = -1
      · rw [if_pos hcnd] at hfr
        subst hfr
        exact hcan r hr ht
      · rw [if_neg hcnd] at hfr
        subst hfr
        exact hcan r hr ht
    obtain ⟨_, ⟨_, hall⟩, hcan2⟩ := signerInvs_applyOps s.chain w a i ops
      (signerUseIndex s w a i).1 hchain (halloc hok) hcan1
    intro hgu
    unfold signerGetUnusedIndex at hgu
    set s2 := applySignerOps (signerUseIndex s w a i).1 ops with hs2
    cases hf : s2.bip32Rows.find? (fun r =>
        r.type = GetBip32Type w a && r.used = -1) with
    | none =>
        simp only [hf] at hgu
        omega
    | some r =>
        simp only [hf] at hgu
        have hmem := List.mem_of_find?_eq_some hf
        have hpred := List.find?_some hf
        simp only [Bool.and_eq_true, decide_eq_true_eq] at hpred
        obtain ⟨j, hj⟩ := hcan2 r hmem hpred.1
        have hji : j = i := by
          rw [hj] at hgu
          simpa [GetIndexFromPath, GetBip32Path] using hgu
        subst hji
        exact absurd (hall r hmem hj) (by simpa using hpred.2)

/-- C3 witness: the monotonicity theorem applied at a signer store of chain
MAIN holding one unallocated cache row for index 0 of the multisig bucket. -/
theorem useIndex_allocation_monotonic_witness :
    ((0 : Int) ≤ 0) ∧
    (((SignerDbState.mk "fp" Chain.MAIN NunchukDbState.empty
        (some [⟨Bip32Path.derived Chain.MAIN WalletType.MULTI_SIG AddressType.ANY 0,
                "x", GetBip32Type WalletType.MULTI_SIG AddressType.ANY, -1⟩])
        none).bip32Rows.filter (fun r =>
          r.path = GetBip32Path Chain.MAIN WalletType.MULTI_SIG AddressType.ANY 0
            && r.used = -1)).length = 1 →
      (signerUseIndex (SignerDbState.mk "fp" Chain.MAIN NunchukDbState.empty
        (some [⟨Bip32Path.derived Chain.MAIN WalletType.MULTI_SIG AddressType.ANY 0,
                "x", GetBip32Type WalletType.MULTI_SIG AddressType.ANY, -1⟩])
        none) WalletType.MULTI_SIG AddressType.ANY 0).2 = true) :=
  ⟨by decide,
   (useIndex_allocation_monotonic
     (SignerDbState.mk "fp" Chain.MAIN NunchukDbState.empty
       (some [⟨Bip32Path.derived Chain.MAIN WalletType.MULTI_SIG AddressType.ANY 0,
               "x", GetBip32Type WalletType.MULTI_SIG AddressType.ANY, -1⟩])
       none) WalletType.MULTI_SIG AddressType.ANY 0 (by decide)).1⟩

/-- C10: on a signer record upgraded to master (the BIP32 table exists),
GetRemoteSigners returns the empty list even though the previously imported
remote entries still exist in the REMOTE table and remain retrievable
individually through GetRemoteSigner. -/
theorem master_remote_signers_hidden (s : SignerDbState) (p : Bip32Path)
    (r : RemoteRow) (hm : s.bip32.isSome = true)
    (hf : s.remoteRows.find? (fun x => x.path = p) = some r) :
    signerGetRemoteSigners s = [] ∧
    signerGetRemoteSigner s p = Except.ok
      ⟨r.name, r.xpub, r.pubkey, p, s.id, r.lastHealthCheck, "", r.used = 1⟩ := by
  constructor
  · simp [signerGetRemoteSigners, signerIsMaster, hm]
  · simp [signerGetRemoteSigner, hf]

/-- C10 witness: a record upgraded to master with one remote entry at a
custom path p. -/
theorem master_remote_signers_hidden_witness :
    ((SignerDbState.mk "fp" Chain.MAIN NunchukDbState.empty (some [])
        (some [⟨Bip32Path.custom "p", "xp", "pk", "nm", 9, -1⟩])).bip32.isSome
      = true) ∧
    ((SignerDbState.mk "fp" Chain.MAIN NunchukDbState.empty (some [])
        (some [⟨Bip32Path.custom "p", "xp", "pk", "nm", 9, -1⟩])).remoteRows.find?
        (fun x => x.path = Bip32Path.custom "p") =
      some ⟨Bip32Path.custom "p", "xp", "pk", "nm", 9, -1⟩) ∧
    (signerGetRemoteSigners (SignerDbState.mk "fp" Chain.MAIN
        NunchukDbState.empty (some [])
        (some [⟨Bip32Path.custom "p", "xp", "pk", "nm", 9, -1⟩])) = [] ∧
     signerGetRemoteSigner (SignerDbState.mk "fp" Chain.MAIN
        NunchukDbState.empty (some [])
        (some [⟨Bip32Path.custom "p", "xp", "pk", "nm", 9, -1⟩]))
        (Bip32Path.custom "p") =
      Except.ok ⟨"nm", "xp", "pk", Bip32Path.custom "p", "fp", 9, "", false⟩) := by
  refine ⟨rfl, rfl, ?_⟩
  exact master_remote_signers_hidden
    (SignerDbState.mk "fp" Chain.MAIN NunchukDbState.empty (some [])
      (some [⟨Bip32Path.custom "p", "xp", "pk", "nm", 9, -1⟩]))
    (Bip32Path.custom "p") ⟨Bip32Path.custom "p", "xp", "pk", "nm", 9, -1⟩
    rfl rfl

/-- C6: re-processing a (txid, height) pair against a local record that is
already confirmed (stored height positive) is a no-op: the storage state is
returned unchanged and no transaction-status event fires. -/
theorem updateTransactions_confirmed_noop (st : StorageState)
    (walletId : String) (item : HistoryItem) (txGet : String → TxGetResult)
    (ws : WalletStore) (row : VtxRow)
    (hws : storageGetWalletDb st walletId = Except.ok ws)
    (hrow : ws.db.vtx.find? (fun r => r.id = item.txHash) = some row)
    (hh : row.height > 0) :
    processHistoryItem txGet st walletId item = (st, []) := by
  have hst : (rowToTransaction row).status = TransactionStatus.CONFIRMED := by
    simp [rowToTransaction, statusOfHeight, fillExtraStatus, hh]
  simp only [processHistoryItem, storageGetTransaction, hws,
    walletGetTransaction, hrow]
  simp [hst]

/-- C6 witness: the no-op theorem applied at a storage state holding one
wallet with a record confirmed at height 150. -/
theorem updateTransactions_confirmed_noop_witness :
    (storageGetWalletDb
        ⟨[("w", ⟨⟨"w", NunchukDbState.empty,
            [⟨"t1", ⟨"t1", [], [], []⟩, 150, 0, "", -1, 0, ExtraData.empty⟩],
            [], []⟩, ⟨1, 1, AddressType.NATIVE_SEGWIT, false, 0⟩⟩)], []⟩ "w" =
      Except.ok ⟨⟨"w", NunchukDbState.empty,
        [⟨"t1", ⟨"t1", [], [], []⟩, 150, 0, "", -1, 0, ExtraData.empty⟩],
        [], []⟩, ⟨1, 1, AddressType.NATIVE_SEGWIT, false, 0⟩⟩) ∧
    ((150 : Int) > 0) ∧
    processHistoryItem (fun t => ⟨⟨t, [], [], []⟩, none⟩)
      ⟨[("w", ⟨⟨"w", NunchukDbState.empty,
          [⟨"t1", ⟨"t1", [], [], []⟩, 150, 0, "", -1, 0, ExtraData.empty⟩],
          [], []⟩, ⟨1, 1, AddressType.NATIVE_SEGWIT, false, 0⟩⟩)], []⟩
      "w" ⟨"t1", 150, 7⟩ =
      (⟨[("w", ⟨⟨"w", NunchukDbState.empty,
          [⟨"t1", ⟨"t1", [], [], []⟩, 150, 0, "", -1, 0, ExtraData.empty⟩],
          [], []⟩, ⟨1, 1, AddressType.NATIVE_SEGWIT, false, 0⟩⟩)], []⟩, []) := by
  refine ⟨rfl, by decide, ?_⟩
  exact updateTransactions_confirmed_noop _ "w" ⟨"t1", 150, 7⟩ _ _
    ⟨"t1", ⟨"t1", [], [], []⟩, 150, 0, "", -1, 0, ExtraData.empty⟩ rfl rfl
    (by decide)

theorem addXPub_chain (s : SignerDbState) (wt : WalletType)
    (adt : AddressType) (i : Int) (xpub : String) :
    (signerAddXPubIndex s wt adt i xpub).1.chain = s.chain := by
  simp only [signerAddXPubIndex, signerAddXPubPath]
  split
  all_goals rfl

theorem addXPub_row_exists (s : SignerDbState) (wt : WalletType)
    (adt : AddressType) (i : Int) (xpub : String) :
    ∃ r ∈ (signerAddXPubIndex s wt adt i xpub).1.bip32Rows,
      r.path = GetBip32Path s.chain wt adt i := by
  simp only [signerAddXPubIndex, signerAddXPubPath]
  by_cases hany : s.bip32Rows.any (fun r => r.path = GetBip32Path s.chain wt adt i)
  · obtain ⟨r0, hr0, hp0⟩ := List.any_eq_true.mp hany
    have hp0 : r0.path = GetBip32Path s.chain wt adt i := by simpa using hp0
    simp only [hany, if_pos]
    refine ⟨if r0.path = GetBip32Path s.chain wt adt i then { r0 with xpub := xpub }
      else r0, List.mem_map.mpr ⟨r0, hr0, rfl⟩, ?_⟩
    rw [if_pos hp0]
    exact hp0
  · simp only [hany, if_neg, not_false_iff, Bool.false_eq_true]
    refine ⟨⟨GetBip32Path s.chain wt adt i, xpub, GetBip32Type wt adt, -1⟩, ?_, rfl⟩
    simp only [SignerDbState.bip32Rows, Option.getD_some]
    exact List.mem_append_right _ (List.mem_singleton.mpr rfl)

theorem useIndex_post_alloc (s : SignerDbState) (wt : WalletType)
    (adt : AddressType) (i : Int)
    (hex : ∃ r ∈ s.bip32Rows, r.path = GetBip32Path s.chain wt adt i) :
    idxAllocatedInv s.chain wt adt i (signerUseIndex s wt adt i).1 := by
  obtain ⟨r0, hr0, hp0⟩ := hex
  have hrows : (signerUseIndex s wt adt i).1.bip32Rows =
      s.bip32Rows.map (fun r =>
        if r.path = GetBip32Path s.chain wt adt i ∧ r.used = -1 then
          { r with used := 1 } else r) := by
    simp only [signerUseIndex, SignerDbState.bip32Rows]
    cases hb : s.bip32 with
    | none => simp [SignerDbState.bip32Rows, hb]
    | some rows => simp [SignerDbState.bip32Rows, hb]
  constructor
  · rw [hrows]
    refine ⟨if r0.path = GetBip32Path s.chain wt adt i ∧ r0.used = -1 then
        { r0 with used := 1 } else r0, List.mem_map.mpr ⟨r0, hr0, rfl⟩, ?_⟩
    by_cases hcnd : r0.path = GetBip32Path s.chain wt adt i ∧ r0.used = -1
    · rw [if_pos hcnd]
      exact ⟨hp0, show (1 : Int) ≠ -1 by decide⟩
    · rw [if_neg hcnd]
      refine ⟨hp0, ?_⟩
      intro hu
      exact hcnd ⟨hp0, hu⟩
  · rw [hrows]
    intro r' hr'
    obtain ⟨r, hr, hfr⟩ := List.mem_map.mp hr'
    by_cases hcnd : r.path = GetBip32Path s.chain wt adt i ∧ r.used = -1
    · rw [if_pos hcnd] at hfr
      subst hfr
      intro _
      exact show (1 : Int) ≠ -1 by decide
    · rw [if_neg hcnd] at hfr
      subst hfr
      intro hrp hru
      exact hcnd ⟨hrp, hru⟩

theorem addXPub_preserves_no_unallocated (s : SignerDbState) (wt : WalletType)
    (adt : AddressType) (i : Int) (xpub : String)
    (hex : ∃ r ∈ s.bip32Rows, r.path = GetBip32Path s.chain wt adt i)
    (hall : ∀ r ∈ s.bip32Rows, r.path = GetBip32Path s.chain wt adt i → r.used ≠ -1) :
    ∀ r ∈ (signerAddXPubIndex s wt adt i xpub).1.bip32Rows,
      r.path = GetBip32Path s.chain wt adt i → r.used ≠ -1 := by
  obtain ⟨r0, hr0, hp0⟩ := hex
  have hany : s.bip32Rows.any (fun r => r.path = GetBip32Path s.chain wt adt i) := by
    exact List.any_eq_true.mpr ⟨r0, hr0, by simp [hp0]⟩
  simp only [signerAddXPubIndex, signerAddXPubPath, hany, if_pos]
  intro r' hr'
  obtain ⟨r, hr, hfr⟩ := List.mem_map.mp hr'
  by_cases hcnd : r.path = GetBip32Path s.chain wt adt i
  · rw [if_pos hcnd] at hfr
    subst hfr
    intro _
    exact hall r hr hcnd
  · rw [if_neg hcnd] at hfr
    subst hfr
    exact hall r hr

theorem useIndex_false_of_allocated (s : SignerDbState) (wt : WalletType)
    (adt : AddressType) (i : Int)
    (hall : ∀ r ∈ s.bip32Rows, r.path = GetBip32Path s.chain wt adt i → r.used ≠ -1) :
    (signerUseIndex s wt adt i).2 = false := by
  have hnil : s.bip32Rows.filter (fun r =>
      r.path = GetBip32Path s.chain wt adt i && r.used = -1) = [] := by
    rw [List.filter_eq_nil_iff]
    intro r hr
    simp only [Bool.and_eq_true, decide_eq_true_eq, not_and]
    intro hrp
    exact hall r hr hrp
  simp [signerUseIndex, hnil]

theorem processOneSigner_master_eq (chain : Chain) (wt : WalletType)
    (adt : AddressType) (allow : Bool) (st : StorageState)
    (signer : SingleSigner) (sdb : SignerDbState)
    (hsdb : getSignerDbOrFresh st chain signer.masterFingerprint = sdb)
    (hm : signerIsMaster sdb = true) (hx : ¬ signer.xpub = "")
    (hp : GetBip32Path chain wt adt (GetIndexFromPath signer.derivationPath) =
      signer.derivationPath) :
    processOneSigner chain wt adt allow st signer =
      (saveSignerDb (saveSignerDb st signer.masterFingerprint sdb)
         signer.masterFingerprint
         (signerUseIndex (signerAddXPubIndex sdb wt adt
            (GetIndexFromPath signer.derivationPath) signer.xpub).1 wt adt
            (GetIndexFromPath signer.derivationPath)).1,
       if (signerUseIndex (signerAddXPubIndex sdb wt adt
            (GetIndexFromPath signer.derivationPath) signer.xpub).1 wt adt
            (GetIndexFromPath signer.derivationPath)).2 = false ∧ allow = false
       then some NunchukErr.SIGNER_USED else none) := by
  simp only [processOneSigner, hsdb, FormalizePath]
  rw [if_pos ⟨hm, hx⟩, if_neg (by simp [hp])]
  cases hu : signerUseIndex (signerAddXPubIndex sdb wt adt
      (GetIndexFromPath signer.derivationPath) signer.xpub).1 wt adt
      (GetIndexFromPath signer.derivationPath) with
  | mk s2 ok =>
      simp only []
      by_cases hcond : ok = false ∧ allow = false
      · rw [if_pos hcond, if_pos hcond]
      · rw [if_neg hcond, if_neg hcond]

theorem processOneSigner_mismatch_eq (chain : Chain) (wt : WalletType)
    (adt : AddressType) (allow : Bool) (st : StorageState)
    (signer : SingleSigner) (sdb : SignerDbState)
    (hsdb : getSignerDbOrFresh st chain signer.masterFingerprint = sdb)
    (hm : signerIsMaster sdb = true) (hx : ¬ signer.xpub = "")
    (hp : ¬ GetBip32Path chain wt adt (GetIndexFromPath signer.derivationPath) =
      signer.derivationPath) :
    processOneSigner chain wt adt allow st signer =
      (saveSignerDb st signer.masterFingerprint sdb,
       some NunchukErr.INVALID_BIP32_PATH) := by
  simp only [processOneSigner, hsdb, FormalizePath]
  rw [if_pos ⟨hm, hx⟩, if_pos hp]

/-- C2: during wallet creation, for a signer whose record is a master signer
(and which supplies an xpub), the supplied derivation path is checked
against a canonical path recomputed from (chain, walletKind, addressKind,
the path's own index); a mismatch fails with INVALID_BIP32_PATH before any
cache mutation; on a match the cache entry of that index is left ALLOCATED
and stored, the operation fails with SIGNER_USED when the entry was already
allocated and the override flag is off, and never raises SIGNER_USED when
the override flag is set. -/
theorem createWallet_signer_verification (chain : Chain) (wt : WalletType)
    (adt : AddressType) (allow : Bool) (st : StorageState)
    (signer : SingleSigner) (sdb : SignerDbState)
    (hsdb : getSignerDbOrFresh st chain signer.masterFingerprint = sdb)
    (hchain : sdb.chain = chain)
    (hm : signerIsMaster sdb = true) (hx : ¬ signer.xpub = "") :
    (¬ GetBip32Path chain wt adt (GetIndexFromPath signer.derivationPath) =
        signer.derivationPath →
      processOneSigner chain wt adt allow st signer =
        (saveSignerDb st signer.masterFingerprint sdb,
         some NunchukErr.INVALID_BIP32_PATH)) ∧
    (∀ _ : GetBip32Path chain wt adt (GetIndexFromPath signer.derivationPath) =
        signer.derivationPath,
      idxAllocatedInv chain wt adt (GetIndexFromPath signer.derivationPath)
        (signerUseIndex (signerAddXPubIndex sdb wt adt
           (GetIndexFromPath signer.derivationPath) signer.xpub).1 wt adt
           (GetIndexFromPath signer.derivationPath)).1 ∧
      (processOneSigner chain wt adt allow st signer).1 =
        saveSignerDb (saveSignerDb st signer.masterFingerprint sdb)
          signer.masterFingerprint
          (signerUseIndex (signerAddXPubIndex sdb wt adt
             (GetIndexFromPath signer.derivationPath) signer.xpub).1 wt adt
             (GetIndexFromPath signer.derivationPath)).1 ∧
      ((∃ r ∈ sdb.bip32Rows, r.path = signer.derivationPath) →
       (∀ r ∈ sdb.bip32Rows, r.path = signer.derivationPath → r.used ≠ -1) →
       allow = false →
       (processOneSigner chain wt adt allow st signer).2 =
         some NunchukErr.SIGNER_USED) ∧
      (allow = true →
       (processOneSigner chain wt adt allow st signer).2 = none)) := by
  constructor
  · intro hp
    exact processOneSigner_mismatch_eq chain wt adt allow st signer sdb hsdb hm hx hp
  · intro hp
    have hceq : (signerAddXPubIndex sdb wt adt
        (GetIndexFromPath signer.derivationPath) signer.xpub).1.chain = sdb.chain :=
      addXPub_chain sdb wt adt (GetIndexFromPath signer.derivationPath) signer.xpub
    have hmeq := processOneSigner_master_eq chain wt adt allow st signer sdb
      hsdb hm hx hp
    refine ⟨?_, ?_, ?_, ?_⟩
    · have h1 := addXPub_row_exists sdb wt adt
        (GetIndexFromPath signer.derivationPath) signer.xpub
      have hex : ∃ r ∈ (signerAddXPubIndex sdb wt adt
          (GetIndexFromPath signer.derivationPath) signer.xpub).1.bip32Rows,
          r.path = GetBip32Path (signerAddXPubIndex sdb wt adt
            (GetIndexFromPath signer.derivationPath) signer.xpub).1.chain wt adt
            (GetIndexFromPath signer.derivationPath) := by
        rw [hceq]
        exact h1
      have h2 := useIndex_post_alloc _ wt adt
        (GetIndexFromPath signer.derivationPath) hex
      rw [hceq, hchain] at h2
      exact h2
    · rw [hmeq]
    · intro hex0 hall0 hfalse
      have hpc : GetBip32Path sdb.chain wt adt
          (GetIndexFromPath signer.derivationPath) = signer.derivationPath := by
        rw [hchain]
        exact hp
      have hex1 : ∃ r ∈ sdb.bip32Rows, r.path = GetBip32Path sdb.chain wt adt
          (GetIndexFromPath signer.derivationPath) := by
        obtain ⟨r, hr, hrp⟩ := hex0
        exact ⟨r, hr, by rw [hpc]; exact hrp⟩
      have hall1 : ∀ r ∈ sdb.bip32Rows, r.path = GetBip32Path sdb.chain wt adt
          (GetIndexFromPath signer.derivationPath) → r.used ≠ -1 := by
        intro r hr hrp
        exact hall0 r hr (by rw [← hpc]; exact hrp)
      have hall2 := addXPub_preserves_no_unallocated sdb wt adt
        (GetIndexFromPath signer.derivationPath) signer.xpub hex1 hall1
      have hok : (signerUseIndex (signerAddXPubIndex sdb wt adt
          (GetIndexFromPath signer.derivationPath) signer.xpub).1 wt adt
          (GetIndexFromPath signer.derivationPath)).2 = false := by
        refine useIndex_false_of_allocated _ wt adt
          (GetIndexFromPath signer.derivationPath) ?_
        rw [hceq]
        exact hall2
      rw [hmeq]
      simp [hok, hfalse]
    · intro htrue
      rw [hmeq]
      simp [htrue]

/-- C2 witness: the verification theorem applied at a master signer store
whose multisig index 0 is already allocated and a wallet creation without
the override flag; the result is the SIGNER_USED failure. -/
theorem createWallet_signer_verification_witness :
    (getSignerDbOrFresh ⟨[], [("fp", SignerDbState.mk "fp" Chain.MAIN
        NunchukDbState.empty
        (some [⟨Bip32Path.derived Chain.MAIN WalletType.MULTI_SIG AddressType.ANY 0,
          "x", GetBip32Type WalletType.MULTI_SIG AddressType.ANY, 1⟩]) none)]⟩
      Chain.MAIN "fp" =
      SignerDbState.mk "fp" Chain.MAIN NunchukDbState.empty
        (some [⟨Bip32Path.derived Chain.MAIN WalletType.MULTI_SIG AddressType.ANY 0,
          "x", GetBip32Type WalletType.MULTI_SIG AddressType.ANY, 1⟩]) none) ∧
    (signerIsMaster (SignerDbState.mk "fp" Chain.MAIN NunchukDbState.empty
        (some [⟨Bip32Path.derived Chain.MAIN WalletType.MULTI_SIG AddressType.ANY 0,
          "x", GetBip32Type WalletType.MULTI_SIG AddressType.ANY, 1⟩]) none) = true) ∧
    (¬ "xp" = "") ∧
    ((processOneSigner Chain.MAIN WalletType.MULTI_SIG AddressType.ANY false
        ⟨[], [("fp", SignerDbState.mk "fp" Chain.MAIN NunchukDbState.empty
          (some [⟨Bip32Path.derived Chain.MAIN WalletType.MULTI_SIG AddressType.ANY 0,
            "x", GetBip32Type WalletType.MULTI_SIG AddressType.ANY, 1⟩]) none)]⟩
        ⟨"n", "xp", "",
          Bip32Path.derived Chain.MAIN WalletType.MULTI_SIG AddressType.ANY 0,
          "fp", 0, "", false⟩).2 = some NunchukErr.SIGNER_USED) :=
  ⟨rfl, rfl, by decide,
   ((createWallet_signer_verification Chain.MAIN WalletType.MULTI_SIG
      AddressType.ANY false
      ⟨[], [("fp", SignerDbState.mk "fp" Chain.MAIN NunchukDbState.empty
        (some [⟨Bip32Path.derived Chain.MAIN WalletType.MULTI_SIG AddressType.ANY 0,
          "x", GetBip32Type WalletType.MULTI_SIG AddressType.ANY, 1⟩]) none)]⟩
      ⟨"n", "xp", "",
        Bip32Path.derived Chain.MAIN WalletType.MULTI_SIG AddressType.ANY 0,
        "fp", 0, "", false⟩
      (SignerDbState.mk "fp" Chain.MAIN NunchukDbState.empty
        (some [⟨Bip32Path.derived Chain.MAIN WalletType.MULTI_SIG AddressType.ANY 0,
          "x", GetBip32Type WalletType.MULTI_SIG AddressType.ANY, 1⟩]) none)
      rfl rfl rfl (by decide)).2 rfl).2.2.1 (by decide) (by decide) rfl⟩

/-- C9: CreateWallet is not atomic on error with respect to signer records:
the per-signer mutations run before the wallet-id existence check, so when
the id already exists the operation returns WALLET_EXISTED together with
the post-signer-processing state; nothing is rolled back. -/
theorem createWallet_not_atomic_on_exists (st : StorageState) (chain : Chain)
    (name : String) (m n : Int) (signers : List SingleSigner)
    (adt : AddressType) (isEscrow : Bool) (desc : String) (allow : Bool)
    (cd : Int) (st1 : StorageState)
    (hmn : ¬ m > n) (hn : n = Int.ofNat signers.length)
    (hps : processSigners chain (walletTypeOf n isEscrow) adt allow st signers
      = (st1, none))
    (hex : st1.wallets.any (fun e =>
      e.1 = walletIdOf signers m adt (walletTypeOf n isEscrow)) = true) :
    createWallet0 st chain name m n signers adt isEscrow desc allow cd =
      (st1, Except.error NunchukErr.WALLET_EXISTED) := by
  simp only [createWallet0]
  rw [if_neg hmn, if_neg (not_not_intro hn)]
  rw [hps]
  simp only [walletIdOf] at hex
  simp [hex]

/-- C9 witness: creating a single-signer wallet whose id store already
exists; the remote-signer record created while processing the signer is
present in the returned state. -/
theorem createWallet_not_atomic_on_exists_witness :
    (¬ (1 : Int) > 1) ∧
    ((1 : Int) = Int.ofNat [(⟨"n", "xp", "pk", Bip32Path.custom "p", "fp", 0,
        "", false⟩ : SingleSigner)].length) ∧
    (processSigners Chain.MAIN (walletTypeOf 1 false) AddressType.NATIVE_SEGWIT
        false
        ⟨[(walletIdOf [⟨"n", "xp", "pk", Bip32Path.custom "p", "fp", 0, "", false⟩]
            1 AddressType.NATIVE_SEGWIT (walletTypeOf 1 false),
          ⟨⟨"", NunchukDbState.empty, [], [], []⟩,
           ⟨1, 1, AddressType.NATIVE_SEGWIT, false, 0⟩⟩)], []⟩
        [⟨"n", "xp", "pk", Bip32Path.custom "p", "fp", 0, "", false⟩] =
      (⟨[(walletIdOf [⟨"n", "xp", "pk", Bip32Path.custom "p", "fp", 0, "", false⟩]
            1 AddressType.NATIVE_SEGWIT (walletTypeOf 1 false),
          ⟨⟨"", NunchukDbState.empty, [], [], []⟩,
           ⟨1, 1, AddressType.NATIVE_SEGWIT, false, 0⟩⟩)],
         [("fp", ⟨"fp", Chain.MAIN, NunchukDbState.empty, none,
           some [⟨Bip32Path.custom "p", "xp", "pk", "import", 0, 1⟩]⟩)]⟩, none)) ∧
    createWallet0
        ⟨[(walletIdOf [⟨"n", "xp", "pk", Bip32Path.custom "p", "fp", 0, "", false⟩]
            1 AddressType.NATIVE_SEGWIT (walletTypeOf 1 false),
          ⟨⟨"", NunchukDbState.empty, [], [], []⟩,
           ⟨1, 1, AddressType.NATIVE_SEGWIT, false, 0⟩⟩)], []⟩
        Chain.MAIN "w" 1 1
        [⟨"n", "xp", "pk", Bip32Path.custom "p", "fp", 0, "", false⟩]
        AddressType.NATIVE_SEGWIT false "d" false 0 =
      (⟨[(walletIdOf [⟨"n", "xp", "pk", Bip32Path.custom "p", "fp", 0, "", false⟩]
            1 AddressType.NATIVE_SEGWIT (walletTypeOf 1 false),
          ⟨⟨"", NunchukDbState.empty, [], [], []⟩,
           ⟨1, 1, AddressType.NATIVE_SEGWIT, false, 0⟩⟩)],
         [("fp", ⟨"fp", Chain.MAIN, NunchukDbState.empty, none,
           some [⟨Bip32Path.custom "p", "xp", "pk", "import", 0, 1⟩]⟩)]⟩,
       Except.error NunchukErr.WALLET_EXISTED) := by
  refine ⟨by decide, by decide, rfl, ?_⟩
  exact createWallet_not_atomic_on_exists _ Chain.MAIN "w" 1 1 _
    AddressType.NATIVE_SEGWIT false "d" false 0 _ (by decide) (by decide) rfl
    (by simp)

theorem shape_useAddress (w : WalletDbState) (x : String) :
    ((walletUseAddress w x).1.addresses).map addrShape =
      w.addresses.map addrShape := by
  by_cases hx : x = ""
  · simp [walletUseAddress, hx]
  · simp only [walletUseAddress, hx, if_neg, not_false_iff]
    rw [List.map_map]
    refine List.map_congr_left ?_
    intro r _
    by_cases hr : r.addr = x <;> simp [addrShape, hr, Function.comp]

theorem shape_useOutputs (outs : List (String × Int)) :
    ∀ w : WalletDbState, ((walletUseOutputAddresses w outs).addresses).map addrShape =
      w.addresses.map addrShape := by
  induction outs with
  | nil => intro w; simp [walletUseOutputAddresses]
  | cons o os ih =>
      intro w
      have h1 := shape_useAddress w o.1
      have h2 := ih (walletUseAddress w o.1).1
      simp only [walletUseOutputAddresses] at h2 ⊢
      simp only [List.foldl_cons]
      exact h2.trans h1

theorem shape_insertTx (w : WalletDbState) (rawTx : TxPayload)
    (height blocktime fee : Int) (memo : String) (cp : Int) :
    ((walletInsertTransaction w rawTx height blocktime fee memo cp).1.addresses).map
      addrShape = w.addresses.map addrShape := by
  unfold walletInsertTransaction
  simp only []
  set w1 := if w.vtx.any (fun r => r.id = rawTx.txid) then w
    else { w with vtx := w.vtx ++
      [⟨rawTx.txid, rawTx, height, fee, memo, cp, blocktime, ExtraData.empty⟩] }
    with hw1
  have h1 : w1.addresses = w.addresses := by rw [hw1]; split <;> rfl
  cases hm : walletGetTransaction w1 rawTx.txid with
  | ok tx =>
      simp only [hm]
      by_cases hh : height > 0
      · simp only [hh, if_pos]
        rw [shape_useOutputs tx.outputs w1, h1]
      · simp only [hh, if_neg, not_false_iff]
        rw [h1]
  | error e =>
      simp only [hm]
      rw [h1]

theorem shape_updateTx (w : WalletDbState) (rawTx : TxPayload)
    (height blocktime : Int) (rej : String) :
    ((walletUpdateTransaction w rawTx height blocktime rej).1.addresses).map
      addrShape = w.addresses.map addrShape := by
  unfold walletUpdateTransaction
  by_cases h0 : height = -1
  · simp [h0]
  · simp only [h0, if_neg, not_false_iff]
    have h1 := updateTxStage1_addresses w rawTx height blocktime rej
    cases he : updateTxStage1 w rawTx height blocktime rej with
    | mk w2 updated =>
        rw [he] at h1
        by_cases hcond : updated = true ∧ height > 0
        · simp only [hcond.1, hcond.2, and_self, if_pos, true_and]
          cases hm : walletGetTransaction w2 rawTx.txid with
          | ok tx =>
              simp only [hm, hcond.1, hcond.2, if_pos, and_self]
              rw [shape_useOutputs tx.outputs w2, h1]
          | error e =>
              simp only [hm, hcond.1, hcond.2, if_pos, and_self]
              rw [h1]
        · simp only [hcond, if_neg, not_false_iff]
          rw [h1]

theorem find_put_list (l : List (String × WalletStore)) (walletId : String)
    (db : WalletDbState) (ws : WalletStore)
    (h : l.find? (fun e => e.1 = walletId) = some (walletId, ws)) :
    (l.map (fun e => if e.1 = walletId then (walletId, ⟨db, e.2.immutable⟩)
      else e)).find? (fun e => e.1 = walletId) =
      some (walletId, ⟨db, ws.immutable⟩) := by
  induction l with
  | nil => simp at h
  | cons e es ih =>
      by_cases he : e.1 = walletId
      · rw [List.find?_cons_of_pos _ (by simpa using he)] at h
        simp only [Option.some.injEq] at h
        subst h
        simp only [List.map_cons]
        rw [List.find?_cons_of_pos _ (by simp)]
        simp
      · rw [List.find?_cons_of_neg _ (by simpa using he)] at h
        simp only [List.map_cons]
        rw [show (if e.1 = walletId then
            ((walletId, ⟨db, e.2.immutable⟩) : String × WalletStore) else e) = e
          from if_neg he]
        rw [List.find?_cons_of_neg _ (by simpa using he)]
        exact ih h

theorem find_storagePut (st : StorageState) (walletId : String)
    (db : WalletDbState) (ws : WalletStore)
    (h : st.wallets.find? (fun e => e.1 = walletId) = some (walletId, ws)) :
    (storagePutWalletDb st walletId db).wallets.find?
      (fun e => e.1 = walletId) = some (walletId, ⟨db, ws.immutable⟩) := by
  simp only [storagePutWalletDb]
  exact find_put_list st.wallets walletId db ws h

theorem processHistoryItem_ledger_shape (txGet : String → TxGetResult)
    (st : StorageState) (walletId : String) (item : HistoryItem)
    (ws : WalletStore)
    (hws : st.wallets.find? (fun e => e.1 = walletId) = some (walletId, ws)) :
    ∃ ws' : WalletStore,
      (processHistoryItem txGet st walletId item).1.wallets.find?
        (fun e => e.1 = walletId) = some (walletId, ws') ∧
      ws'.immutable = ws.immutable ∧
      ws'.db.addresses.map addrShape = ws.db.addresses.map addrShape := by
  have hget : storageGetWalletDb st walletId = Except.ok ws := by
    simp [storageGetWalletDb, hws]
  unfold processHistoryItem
  cases hm : storageGetTransaction st walletId item.txHash with
  | ok tx =>
      simp only [hm]
      by_cases hc : tx.status ≠ TransactionStatus.CONFIRMED ∧ item.height > 0
      · rw [if_pos hc]
        simp only [storageUpdateTransaction, hget]
        refine ⟨⟨(walletUpdateTransaction ws.db (txGet item.txHash).payload
          item.height ((txGet item.txHash).blocktime.getD 0) "").1,
          ws.immutable⟩, ?_, rfl, ?_⟩
        · exact find_storagePut st walletId _ ws hws
        · exact shape_updateTx ws.db _ _ _ _
      · rw [if_neg hc]
        exact ⟨ws, hws, rfl, rfl⟩
  | error e =>
      cases e with
      | TX_NOT_FOUND =>
          simp only [hm]
          simp only [storageInsertTransaction, hget]
          refine ⟨⟨(walletInsertTransaction ws.db (txGet item.txHash).payload
            (if item.height ≤ 0 then 0 else item.height)
            ((txGet item.txHash).blocktime.getD 0)
            (if item.height ≤ 0 then item.fee else 0) "" (-1)).1,
            ws.immutable⟩, ?_, rfl, ?_⟩
          · exact find_storagePut st walletId _ ws hws
          · exact shape_insertTx ws.db _ _ _ _ _ _
      | INVALID_PARAMETER => simp only [hm]; exact ⟨ws, hws, rfl, rfl⟩
      | INVALID_BIP32_PATH => simp only [hm]; exact ⟨ws, hws, rfl, rfl⟩
      | SIGNER_USED => simp only [hm]; exact ⟨ws, hws, rfl, rfl⟩
      | SIGNER_NOT_FOUND => simp only [hm]; exact ⟨ws, hws, rfl, rfl⟩
      | SIGNER_EXISTS => simp only [hm]; exact ⟨ws, hws, rfl, rfl⟩
      | WALLET_EXISTED => simp only [hm]; exact ⟨ws, hws, rfl, rfl⟩
      | WALLET_NOT_FOUND => simp only [hm]; exact ⟨ws, hws, rfl, rfl⟩
      | ADDRESS_NOT_FOUND => simp only [hm]; exact ⟨ws, hws, rfl, rfl⟩

theorem updateTransactions_foldl_state (txGet : String → TxGetResult)
    (walletId : String) (hist : List HistoryItem) :
    ∀ (st : StorageState) (evs : List SyncEvent),
      (hist.foldl (fun acc item =>
        let (st', e2) := processHistoryItem txGet acc.1 walletId item
        (st', acc.2 ++ e2)) (st, evs)).1 =
      hist.foldl (fun s item => (processHistoryItem txGet s walletId item).1) st := by
  induction hist with
  | nil => intro st evs; rfl
  | cons item rest ih =>
      intro st evs
      simp only [List.foldl_cons]
      cases hp : processHistoryItem txGet st walletId item with
      | mk st' e2 => simpa using ih st' (evs ++ e2)

theorem updateTransactions_state_eq (txGet : String → TxGetResult)
    (st : StorageState) (walletId : String) (hist : List HistoryItem) :
    (updateTransactions txGet st walletId hist).1 =
      hist.foldl (fun s item => (processHistoryItem txGet s walletId item).1) st := by
  unfold updateTransactions
  exact updateTransactions_foldl_state txGet walletId hist st []

theorem foldl_state_ledger_shape (txGet : String → TxGetResult)
    (walletId : String) (hist : List HistoryItem) :
    ∀ (st : StorageState) (ws : WalletStore),
      st.wallets.find? (fun e => e.1 = walletId) = some (walletId, ws) →
      ∃ ws' : WalletStore,
        (hist.foldl (fun s item =>
          (processHistoryItem txGet s walletId item).1) st).wallets.find?
          (fun e => e.1 = walletId) = some (walletId, ws') ∧
        ws'.immutable = ws.immutable ∧
        ws'.db.addresses.map addrShape = ws.db.addresses.map addrShape := by
  induction hist with
  | nil =>
      intro st ws hws
      exact ⟨ws, hws, rfl, rfl⟩
  | cons item rest ih =>
      intro st ws hws
      simp only [List.foldl_cons]
      obtain ⟨ws1, hws1, him1, hsh1⟩ :=
        processHistoryItem_ledger_shape txGet st walletId item ws hws
      obtain ⟨ws2, hws2, him2, hsh2⟩ :=
        ih (processHistoryItem txGet st walletId item).1 ws1 hws1
      exact ⟨ws2, hws2, him2.trans him1, hsh2.trans hsh1⟩

theorem lookAhead_empty_eq (sync : SyncState) (st : StorageState)
    (backend : Backend) (chain : Chain) (walletId address : String)
    (index : Int) (internal : Bool)
    (hst : sync.status = SyncStatus.READY ∨ sync.status = SyncStatus.SYNCING)
    (hchain : chain = sync.appChain)
    (hne : (backend.histOf (AddressToScriptHash address)).isEmpty = true) :
    lookAhead sync st backend chain walletId address index internal =
      ((subscribeAddress sync walletId address).1, st, false, []) := by
  have hc1 : ¬(¬ sync.status = SyncStatus.READY ∧
      ¬ sync.status = SyncStatus.SYNCING) := by
    rcases hst with h | h <;> simp [h]
  unfold lookAhead
  rw [if_neg hc1, if_neg (not_not_intro hchain)]
  simp only [subscribeAddress, hne, if_pos]

theorem lookAhead_nonempty_eq (sync : SyncState) (st : StorageState)
    (backend : Backend) (chain : Chain) (walletId address : String)
    (index : Int) (internal : Bool)
    (hst : sync.status = SyncStatus.READY ∨ sync.status = SyncStatus.SYNCING)
    (hchain : chain = sync.appChain)
    (hne : ¬ (backend.histOf (AddressToScriptHash address)).isEmpty = true) :
    lookAhead sync st backend chain walletId address index internal =
      ((subscribeAddress sync walletId address).1,
       (storageSetUtxos
          (updateTransactions backend.txGet
            (storageAddAddress st walletId address index internal).1 walletId
            (backend.histOf (AddressToScriptHash address))).1
          walletId address (backend.utxoOf (AddressToScriptHash address))).1,
       true,
       (updateTransactions backend.txGet
          (storageAddAddress st walletId address index internal).1 walletId
          (backend.histOf (AddressToScriptHash address))).2) := by
  have hc1 : ¬(¬ sync.status = SyncStatus.READY ∧
      ¬ sync.status = SyncStatus.SYNCING) := by
    rcases hst with h | h <;> simp [h]
  unfold lookAhead
  rw [if_neg hc1, if_neg (not_not_intro hchain)]
  simp only [subscribeAddress, hne, if_neg, not_false_iff]
  cases h1 : storageAddAddress st walletId address index internal with
  | mk st1 b1 =>
      cases h2 : updateTransactions backend.txGet st1 walletId
          (backend.histOf (AddressToScriptHash address)) with
      | mk st2 evs =>
          cases h3 : storageSetUtxos st2 walletId address
              (backend.utxoOf (AddressToScriptHash address)) with
          | mk st3 b3 => rfl

/-- C8: address-gap-limit discovery.  For a connected synchronizer on the
matching chain and a candidate (address, index, isChange) not yet in the
wallet ledger: when the queried history is empty, LookAhead returns false
and the storage state (in particular the ledger) is untouched; when the
history is non-empty, LookAhead returns true and the address is persisted
into the ledger with its index, its change flag and the current
unspent-output snapshot of the address (the reconciled history having been
folded into the same wallet store). -/
theorem lookAhead_gap_discovery (sync : SyncState) (st : StorageState)
    (backend : Backend) (chain : Chain) (walletId address : String)
    (index : Int) (internal : Bool) (ws : WalletStore)
    (hst : sync.status = SyncStatus.READY ∨ sync.status = SyncStatus.SYNCING)
    (hchain : chain = sync.appChain)
    (hws : st.wallets.find? (fun e => e.1 = walletId) = some (walletId, ws))
    (hnot : ∀ r ∈ ws.db.addresses, ¬ r.addr = address) :
    (backend.histOf (AddressToScriptHash address) = [] →
      (lookAhead sync st backend chain walletId address index internal).2.1 = st ∧
      (lookAhead sync st backend chain walletId address index internal).2.2.1 = false) ∧
    (¬ backend.histOf (AddressToScriptHash address) = [] →
      (lookAhead sync st backend chain walletId address index internal).2.2.1 = true ∧
      ∃ ws' : WalletStore,
        (lookAhead sync st backend chain walletId address index
          internal).2.1.wallets.find? (fun e => e.1 = walletId) =
          some (walletId, ws') ∧
        ∃ r ∈ ws'.db.addresses, r.addr = address ∧ r.idx = index ∧
          r.internal = internal ∧
          r.utxo = some (backend.utxoOf (AddressToScriptHash address))) := by
  constructor
  · intro hh
    rw [lookAhead_empty_eq sync st backend chain walletId address index internal
      hst hchain (by simp [hh])]
    exact ⟨rfl, rfl⟩
  · intro hh
    rw [lookAhead_nonempty_eq sync st backend chain walletId address index
      internal hst hchain (by simpa using hh)]
    refine ⟨rfl, ?_⟩
    have hget : storageGetWalletDb st walletId = Except.ok ws := by
      simp [storageGetWalletDb, hws]
    have hany : ws.db.addresses.any (fun r => r.addr = address) = false := by
      rw [List.any_eq_false]
      intro r hr
      simpa using hnot r hr
    have headd : storageAddAddress st walletId address index internal =
        (storagePutWalletDb st walletId
          { ws.db with addresses :=
            ws.db.addresses ++ [⟨address, index, internal, false, none⟩] },
         Except.ok true) := by
      simp only [storageAddAddress, hget, walletAddAddress, hany,
        Bool.false_eq_true, if_neg, not_false_iff]
    have hfind1 : (storageAddAddress st walletId address index
        internal).1.wallets.find? (fun e => e.1 = walletId) =
        some (walletId, ⟨{ ws.db with addresses :=
          ws.db.addresses ++ [⟨address, index, internal, false, none⟩] },
          ws.immutable⟩) := by
      rw [headd]
      exact find_storagePut st walletId _ ws hws
    obtain ⟨ws2, hfind2, him2, hsh2⟩ := by
      have := foldl_state_ledger_shape backend.txGet walletId
        (backend.histOf (AddressToScriptHash address))
        (storageAddAddress st walletId address index internal).1
        ⟨{ ws.db with addresses :=
          ws.db.addresses ++ [⟨address, index, internal, false, none⟩] },
          ws.immutable⟩ hfind1
      rw [← updateTransactions_state_eq] at this
      exact this
    have hmem2 : (address, index, internal,
        (none : Option (List UtxoItem))) ∈ ws2.db.addresses.map addrShape := by
      rw [hsh2]
      refine List.mem_map.mpr ⟨⟨address, index, internal, false, none⟩, ?_, rfl⟩
      exact List.mem_append_right _ (List.mem_singleton.mpr rfl)
    obtain ⟨r2, hr2, hshape2⟩ := List.mem_map.mp hmem2
    have hr2addr : r2.addr = address := congrArg Prod.fst hshape2
    have hr2idx : r2.idx = index := congrArg (fun q => q.2.1) hshape2
    have hr2int : r2.internal = internal := congrArg (fun q => q.2.2.1) hshape2
    have hget2 : storageGetWalletDb
        (updateTransactions backend.txGet
          (storageAddAddress st walletId address index internal).1 walletId
          (backend.histOf (AddressToScriptHash address))).1 walletId =
        Except.ok ws2 := by
      simp [storageGetWalletDb, hfind2]
    have hset1 : (storageSetUtxos
        (updateTransactions backend.txGet
          (storageAddAddress st walletId address index internal).1 walletId
          (backend.histOf (AddressToScriptHash address))).1 walletId address
        (backend.utxoOf (AddressToScriptHash address))).1 =
        storagePutWalletDb
          (updateTransactions backend.txGet
            (storageAddAddress st walletId address index internal).1 walletId
            (backend.histOf (AddressToScriptHash address))).1 walletId
          (walletSetUtxos ws2.db address
            (backend.utxoOf (AddressToScriptHash address))).1 := by
      simp only [storageSetUtxos, hget2]
    refine ⟨⟨(walletSetUtxos ws2.db address
      (backend.utxoOf (AddressToScriptHash address))).1, ws2.immutable⟩, ?_, ?_⟩
    · rw [hset1]
      exact find_storagePut _ walletId _ ws2 hfind2
    · refine ⟨⟨r2.addr, r2.idx, r2.internal, r2.used,
        some (backend.utxoOf (AddressToScriptHash address))⟩, ?_, ?_, ?_, ?_, ?_⟩
      · simp only [walletSetUtxos]
        refine List.mem_map.mpr ⟨r2, hr2, ?_⟩
        rw [if_pos hr2addr]
      · exact hr2addr
      · exact hr2idx
      · exact hr2int
      · rfl

/-- C8 witness: a ready synchronizer on the matching chain, a wallet with an
empty ledger and a backend reporting empty history for the candidate; the
discovery theorem yields false and an untouched storage state. -/
theorem lookAhead_gap_discovery_witness :
    ((SyncState.mk SyncStatus.READY Chain.MAIN []).status = SyncStatus.READY ∨
     (SyncState.mk SyncStatus.READY Chain.MAIN []).status = SyncStatus.SYNCING) ∧
    (Chain.MAIN = (SyncState.mk SyncStatus.READY Chain.MAIN []).appChain) ∧
    ((StorageState.mk [("w", ⟨⟨"w", NunchukDbState.empty, [], [], []⟩,
        ⟨1, 1, AddressType.NATIVE_SEGWIT, false, 0⟩⟩)] []).wallets.find?
      (fun e => e.1 = "w") =
      some ("w", ⟨⟨"w", NunchukDbState.empty, [], [], []⟩,
        ⟨1, 1, AddressType.NATIVE_SEGWIT, false, 0⟩⟩)) ∧
    ((lookAhead (SyncState.mk SyncStatus.READY Chain.MAIN [])
        (StorageState.mk [("w", ⟨⟨"w", NunchukDbState.empty, [], [], []⟩,
          ⟨1, 1, AddressType.NATIVE_SEGWIT, false, 0⟩⟩)] [])
        (Backend.mk (fun t => ⟨⟨t, [], [], []⟩, none⟩) (fun _ => [])
          (fun _ => []))
        Chain.MAIN "w" "a" 0 false).2.1 =
      StorageState.mk [("w", ⟨⟨"w", NunchukDbState.empty, [], [], []⟩,
        ⟨1, 1, AddressType.NATIVE_SEGWIT, false, 0⟩⟩)] [] ∧
     (lookAhead (SyncState.mk SyncStatus.READY Chain.MAIN [])
        (StorageState.mk [("w", ⟨⟨"w", NunchukDbState.empty, [], [], []⟩,
          ⟨1, 1, AddressType.NATIVE_SEGWIT, false, 0⟩⟩)] [])
        (Backend.mk (fun t => ⟨⟨t, [], [], []⟩, none⟩) (fun _ => [])
          (fun _ => []))
        Chain.MAIN "w" "a" 0 false).2.2.1 = false) :=
  ⟨Or.inl rfl, rfl, rfl,
   (lookAhead_gap_discovery (SyncState.mk SyncStatus.READY Chain.MAIN [])
     (StorageState.mk [("w", ⟨⟨"w", NunchukDbState.empty, [], [], []⟩,
       ⟨1, 1, AddressType.NATIVE_SEGWIT, false, 0⟩⟩)] [])
     (Backend.mk (fun t => ⟨⟨t, [], [], []⟩, none⟩) (fun _ => [])
       (fun _ => []))
     Chain.MAIN "w" "a" 0 false
     ⟨⟨"w", NunchukDbState.empty, [], [], []⟩,
      ⟨1, 1, AddressType.NATIVE_SEGWIT, false, 0⟩⟩
     (Or.inl rfl) rfl rfl (by simp)).1 rfl⟩

theorem addSigner_fold (sl : List SingleSigner) :
    ∀ w : WalletDbState,
      (w.signerRows.map walletSignerRowKey ++ sl.map getSingleSignerKey).Nodup →
      (sl.foldl (fun acc s => (walletAddSigner acc s).1) w).signerRows =
        w.signerRows ++ sl.map walletSignerRowOf := by
  induction sl with
  | nil => intro w h; simp
  | cons s rest ih =>
      intro w h
      have hnot : getSingleSignerKey s ∉ w.signerRows.map walletSignerRowKey := by
        intro hmem
        rw [List.nodup_append] at h
        exact h.2.2 hmem (by simp)
      have hany : w.signerRows.any (fun r =>
          (r.keyXpub, r.keyPublicKey, r.keyDerivationPath,
            r.keyMasterFingerprint) = getSingleSignerKey s) = false := by
        rw [List.any_eq_false]
        intro r hr
        simp only [decide_eq_true_eq]
        intro heq
        exact hnot (List.mem_map.mpr ⟨r, hr, heq⟩)
      simp only [List.foldl_cons]
      have hstep : (walletAddSigner w s).1 =
          { w with signerRows := w.signerRows ++ [walletSignerRowOf s] } := by
        simp only [walletAddSigner, hany, Bool.false_eq_true, if_neg,
          not_false_iff]
        rfl
      rw [hstep]
      rw [ih { w with signerRows := w.signerRows ++ [walletSignerRowOf s] } ?hnd]
      · simp [List.append_assoc]
      · simp only [List.map_append, List.map_cons, List.map_nil]
        have : (w.signerRows.map walletSignerRowKey ++
            [walletSignerRowKey (walletSignerRowOf s)]) ++
            rest.map getSingleSignerKey =
            w.signerRows.map walletSignerRowKey ++
            (getSingleSignerKey s :: rest.map getSingleSignerKey) := by
          rw [List.append_assoc]
          rfl
        rw [this]
        simpa using h

theorem getSigners_initWallet (id name : String) (m n : Int)
    (signers : List SingleSigner) (adt : AddressType) (esc : Bool) (cd : Int)
    (desc : String) (hkeys : (signers.map getSingleSignerKey).Nodup) :
    walletGetSigners (walletInitWallet id name m n signers adt esc cd desc).1 =
      signers.map persistedSigner := by
  unfold walletInitWallet
  simp only [walletGetSigners]
  rw [addSigner_fold signers _ (by simpa using hkeys)]
  simp only [List.nil_append, List.map_map]
  rfl

theorem descKey_persisted (s : SingleSigner)
    (hl : strToLower s.masterFingerprint = s.masterFingerprint) :
    signerDescKey (persistedSigner s) = signerDescKey s := by
  unfold signerDescKey persistedSigner
  simp only [hl]

theorem descriptor_persisted (signers : List SingleSigner) (m : Int)
    (dp : DescriptorPath) (adt : AddressType) (wt : WalletType)
    (hl : ∀ s ∈ signers, strToLower s.masterFingerprint = s.masterFingerprint) :
    GetDescriptorForSigners (signers.map persistedSigner) m dp adt wt =
      GetDescriptorForSigners signers m dp adt wt := by
  unfold GetDescriptorForSigners
  have hkeys : signers.map (signerDescKey ∘ persistedSigner) =
      signers.map signerDescKey :=
    List.map_congr_left (fun s hs => descKey_persisted s (hl s hs))
  simp only [List.map_map, hkeys]

/-- C1: wallet identity is content-addressed and deterministic.  After the
policy validation and the signer processing of CreateWallet0, the wallet id
is the checksum of the canonical external descriptor of the signer set (a
pure function of the signers, m, the address kind and the derived wallet
kind); when a store with that id already exists the call fails with
WALLET_EXISTED; otherwise the wallet is stored under that id and
recomputing the id from the persisted signer set and policy reproduces
exactly the id used as the storage key (the persisted fingerprints being
lower-cased, fingerprints already lower-case round-trip unchanged). -/
theorem createWallet_content_addressed (st : StorageState) (chain : Chain)
    (name : String) (m n : Int) (signers : List SingleSigner)
    (adt : AddressType) (isEscrow : Bool) (desc : String) (allow : Bool)
    (cd : Int) (st1 : StorageState)
    (hmn : ¬ m > n) (hn : n = Int.ofNat signers.length)
    (hps : processSigners chain (walletTypeOf n isEscrow) adt allow st signers
      = (st1, none))
    (hl : ∀ s ∈ signers, strToLower s.masterFingerprint = s.masterFingerprint)
    (hkeys : (signers.map getSingleSignerKey).Nodup) :
    (st1.wallets.any (fun e =>
        e.1 = walletIdOf signers m adt (walletTypeOf n isEscrow)) = true →
      (createWallet0 st chain name m n signers adt isEscrow desc allow cd).2 =
        Except.error NunchukErr.WALLET_EXISTED) ∧
    (st1.wallets.any (fun e =>
        e.1 = walletIdOf signers m adt (walletTypeOf n isEscrow)) = false →
      ∃ (w : Wallet) (ws : WalletStore),
        (createWallet0 st chain name m n signers adt isEscrow desc allow cd).2 =
          Except.ok w ∧
        w.id = walletIdOf signers m adt (walletTypeOf n isEscrow) ∧
        (createWallet0 st chain name m n signers adt isEscrow desc allow
          cd).1.wallets.find? (fun e => e.1 = w.id) = some (w.id, ws) ∧
        walletIdOf (walletGetSigners ws.db) ws.immutable.m
          ws.immutable.addressType
          (walletTypeOf ws.immutable.n ws.immutable.isEscrow) = w.id) := by
  have hred : createWallet0 st chain name m n signers adt isEscrow desc allow cd =
      (if st1.wallets.any (fun e =>
          e.1 = walletIdOf signers m adt (walletTypeOf n isEscrow)) then
        (st1, Except.error NunchukErr.WALLET_EXISTED)
      else
        ({ st1 with wallets := st1.wallets ++
            [(walletIdOf signers m adt (walletTypeOf n isEscrow),
              ⟨(walletInitWallet
                  (walletIdOf signers m adt (walletTypeOf n isEscrow)) name m n
                  signers adt isEscrow cd desc).1,
                (walletInitWallet
                  (walletIdOf signers m adt (walletTypeOf n isEscrow)) name m n
                  signers adt isEscrow cd desc).2⟩)] },
         Except.ok ⟨walletIdOf signers m adt (walletTypeOf n isEscrow), m, n,
           signers, adt, isEscrow, cd, name, desc, 0⟩)) := by
    simp only [createWallet0]
    rw [if_neg hmn, if_neg (not_not_intro hn), hps]
    rfl
  constructor
  · intro hex
    rw [hred, if_pos hex]
  · intro hnx
    have hnone : st1.wallets.find? (fun e =>
        e.1 = walletIdOf signers m adt (walletTypeOf n isEscrow)) = none := by
      rw [List.find?_eq_none]
      intro e he
      have := List.any_eq_false.mp hnx e he
      simpa using this
    refine ⟨⟨walletIdOf signers m adt (walletTypeOf n isEscrow), m, n, signers,
      adt, isEscrow, cd, name, desc, 0⟩,
      ⟨(walletInitWallet (walletIdOf signers m adt (walletTypeOf n isEscrow))
          name m n signers adt isEscrow cd desc).1,
        (walletInitWallet (walletIdOf signers m adt (walletTypeOf n isEscrow))
          name m n signers adt isEscrow cd desc).2⟩, ?_, rfl, ?_, ?_⟩
    · rw [hred, if_neg (by simp [hnx])]
    · rw [hred, if_neg (by simp [hnx])]
      simp only [List.find?_append, hnone, Option.none_or]
      rw [List.find?_cons_of_pos _ (by simp)]
    · have himm : (walletInitWallet
          (walletIdOf signers m adt (walletTypeOf n isEscrow)) name m n signers
          adt isEscrow cd desc).2 = ⟨m, n, adt, isEscrow, cd⟩ := rfl
      rw [himm]
      simp only []
      rw [getSigners_initWallet _ name m n signers adt isEscrow cd desc hkeys]
      unfold walletIdOf
      rw [descriptor_persisted signers m DescriptorPath.EXTERNAL_ALL adt
        (walletTypeOf n isEscrow) hl]

/-- C1 witness: the content-addressing theorem applied to creating a fresh
single-signer wallet from one remote signer with a lower-case
fingerprint. -/
theorem createWallet_content_addressed_witness :
    (¬ (1 : Int) > 1) ∧
    ((1 : Int) = Int.ofNat [(⟨"n", "xp", "pk", Bip32Path.custom "p", "fp", 0,
        "", false⟩ : SingleSigner)].length) ∧
    (processSigners Chain.MAIN (walletTypeOf 1 false) AddressType.NATIVE_SEGWIT
        false ⟨[], []⟩
        [⟨"n", "xp", "pk", Bip32Path.custom "p", "fp", 0, "", false⟩] =
      (⟨[], [("fp", ⟨"fp", Chain.MAIN, NunchukDbState.empty, none,
        some [⟨Bip32Path.custom "p", "xp", "pk", "import", 0, 1⟩]⟩)]⟩, none)) ∧
    (∀ s ∈ [(⟨"n", "xp", "pk", Bip32Path.custom "p", "fp", 0, "", false⟩ :
        SingleSigner)], strToLower s.masterFingerprint = s.masterFingerprint) ∧
    (([(⟨"n", "xp", "pk", Bip32Path.custom "p", "fp", 0, "", false⟩ :
        SingleSigner)].map getSingleSignerKey).Nodup) ∧
    (∃ (w : Wallet) (ws : WalletStore),
      (createWallet0 ⟨[], []⟩ Chain.MAIN "w" 1 1
        [⟨"n", "xp", "pk", Bip32Path.custom "p", "fp", 0, "", false⟩]
        AddressType.NATIVE_SEGWIT false "d" false 0).2 = Except.ok w ∧
      w.id = walletIdOf
        [⟨"n", "xp", "pk", Bip32Path.custom "p", "fp", 0, "", false⟩] 1
        AddressType.NATIVE_SEGWIT (walletTypeOf 1 false) ∧
      (createWallet0 ⟨[], []⟩ Chain.MAIN "w" 1 1
        [⟨"n", "xp", "pk", Bip32Path.custom "p", "fp", 0, "", false⟩]
        AddressType.NATIVE_SEGWIT false "d" false
        0).1.wallets.find? (fun e => e.1 = w.id) = some (w.id, ws) ∧
      walletIdOf (walletGetSigners ws.db) ws.immutable.m
        ws.immutable.addressType
        (walletTypeOf ws.immutable.n ws.immutable.isEscrow) = w.id) :=
  ⟨by decide, by decide, rfl, by decide, by decide,
   (createWallet_content_addressed ⟨[], []⟩ Chain.MAIN "w" 1 1
     [⟨"n", "xp", "pk", Bip32Path.custom "p", "fp", 0, "", false⟩]
     AddressType.NATIVE_SEGWIT false "d" false 0
     ⟨[], [("fp", ⟨"fp", Chain.MAIN, NunchukDbState.empty, none,
       some [⟨Bip32Path.custom "p", "xp", "pk", "import", 0, 1⟩]⟩)]⟩
     (by decide) (by decide) rfl (by decide) (by decide)).2 rfl⟩

theorem getUnspentOutputs_decompose (w : WalletDbState) (rl : Bool) :
    walletGetUnspentOutputs w rl =
      injectedChangeOutputs w ++ snapshotOutputs w rl := rfl

theorem foldl_add_if_filter (p : UnspentOutput → Prop) [DecidablePred p]
    (l : List UnspentOutput) (acc : Int) :
    l.foldl (fun a u => if p u then a + u.amount else a) acc =
      (l.filter (fun u => decide (p u))).foldl (fun a u => a + u.amount) acc := by
  induction l generalizing acc with
  | nil => rfl
  | cons x xs ih =>
    rw [List.foldl_cons, List.filter_cons]
    by_cases hx : p x
    · rw [if_pos hx, if_pos (by simpa using hx), List.foldl_cons]
      exact ih _
    · rw [if_neg hx, if_neg (by simpa using hx)]
      exact ih _

theorem getBalance_filter_sum (w : WalletDbState) :
    walletGetBalance w =
      ((walletGetUnspentOutputs w true).filter (fun v =>
          decide (v.height > 0 ∨
            (walletGetAddresses w false true).contains v.address = true))).foldl
        (fun a v => a + v.amount) 0 := by
  simp only [walletGetBalance]
  exact foldl_add_if_filter _ _ 0

theorem injected_change_shape (w : WalletDbState) (v : UnspentOutput)
    (hv : v ∈ injectedChangeOutputs w) :
    v.height = 0 ∧ (walletGetAddresses w false true).contains v.address = true := by
  simp only [injectedChangeOutputs] at hv
  rcases List.mem_flatMap.1 hv with ⟨t, ht, hvt⟩
  rcases List.mem_map.1 hvt with ⟨e, he, rfl⟩
  have ht0 : t.height = 0 := by simpa using (List.mem_filter.1 ht).2
  simp only [changeOutputsOf] at he
  have he2 := (List.mem_filter.1 he).2
  exact ⟨ht0, he2⟩

theorem snapshot_not_locked (w : WalletDbState) (u : UnspentOutput)
    (hs : u ∈ snapshotOutputs w true) (tx : Transaction)
    (htx : tx ∈ walletGetTransactions w) (hp : tx.height = 0) :
    (u.txid, u.vout) ∉ tx.inputs := by
  intro hmem
  simp only [snapshotOutputs, eq_self_iff_true, if_true] at hs
  rcases List.mem_flatMap.1 hs with ⟨a, ha, hua⟩
  cases hut : a.utxo with
  | none =>
    rw [hut] at hua
    exact (List.not_mem_nil u) hua
  | some items =>
    rw [hut] at hua
    rcases List.mem_filterMap.1 hua with ⟨it, hit, hg⟩
    split at hg
    · exact Option.noConfusion hg
    · rename_i hnl
      cases hg
      refine hnl ?_
      have htxp : tx ∈ (walletGetTransactions w).filter (fun t => t.height = 0) :=
        List.mem_filter.2 ⟨htx, by simp [hp]⟩
      have hin : (it.txid, it.vout) ∈
          ((walletGetTransactions w).filter (fun t => t.height = 0)).flatMap
            (fun t => t.inputs) :=
        List.mem_flatMap.2 ⟨tx, htxp, hmem⟩
      have hall : (it.txid, it.vout) ∈
          ((walletGetTransactions w).filter (fun t => t.height = 0)).flatMap
            (fun t =>
              (changeOutputsOf (walletGetAddresses w false true) t).map
                (fun e => (t.txid, Int.ofNat e.1))) ++
          ((walletGetTransactions w).filter (fun t => t.height = 0)).flatMap
            (fun t => t.inputs) :=
        List.mem_append.2 (Or.inr hin)
      simpa using hall

/-- C5 counterexample: in cexWallet the output (A, 0) is present in the
backend snapshot of the change address c and is consumed as an input by the
pending transaction B of the wallet itself, yet it appears in
GetUnspentOutputs(true): the manual change-injection pass pushes it without
consulting the locked set. -/
theorem getUnspentOutputs_includes_spent_change :
    ∃ u ∈ walletGetUnspentOutputs cexWallet true,
      (∃ tx ∈ walletGetTransactions cexWallet,
        tx.height = 0 ∧ (u.txid, u.vout) ∈ tx.inputs) ∧
      (∃ a ∈ cexWallet.addresses, ∃ it ∈ a.utxo.getD [],
        it.txid = u.txid ∧ it.vout = u.vout) := by decide

/-- C5 (amended): outside the manually injected pending change outputs,
GetUnspentOutputs(true) excludes every output consumed as an input by a
height-0 transaction of the wallet itself; every injected output is an
in-mempool output at a change-flagged address; and the balance is the sum
of the amounts of the returned outputs with confirmed height or a
change-flagged address. -/
theorem getUnspentOutputs_exclusion_outside_injection (w : WalletDbState)
    (u : UnspentOutput) (tx : Transaction)
    (hu : u ∈ walletGetUnspentOutputs w true)
    (hni : u ∉ injectedChangeOutputs w)
    (htx : tx ∈ walletGetTransactions w) (hp : tx.height = 0) :
    (u.txid, u.vout) ∉ tx.inputs ∧
    (∀ v ∈ injectedChangeOutputs w, v.height = 0 ∧
      (walletGetAddresses w false true).contains v.address = true) ∧
    walletGetBalance w =
      ((walletGetUnspentOutputs w true).filter (fun v =>
          decide (v.height > 0 ∨
            (walletGetAddresses w false true).contains v.address = true))).foldl
        (fun a v => a + v.amount) 0 := by
  refine ⟨?_, fun v hv => injected_change_shape w v hv, getBalance_filter_sum w⟩
  rw [getUnspentOutputs_decompose] at hu
  rcases List.mem_append.1 hu with hinj | hsnap
  · exact absurd hinj hni
  · exact snapshot_not_locked w u hsnap tx htx hp

/-- C5 witness: the amended exclusion applied in witWallet to the snapshot
output (C, 0) — absent from the injected list — against the pending
transaction B, which spends the unrelated (D, 0). -/
theorem getUnspentOutputs_exclusion_outside_injection_witness :
    ((⟨"C", 0, "r", 7, 0, ""⟩ : UnspentOutput) ∈
      walletGetUnspentOutputs witWallet true) ∧
    ((⟨"C", 0, "r", 7, 0, ""⟩ : UnspentOutput) ∉ injectedChangeOutputs witWallet) ∧
    ((⟨"B", [("D", 0)], [], 0, 0, "", 0, 0,
        TransactionStatus.PENDING_CONFIRMATION, none⟩ : Transaction) ∈
      walletGetTransactions witWallet) ∧
    ((⟨"B", [("D", 0)], [], 0, 0, "", 0, 0,
        TransactionStatus.PENDING_CONFIRMATION, none⟩ : Transaction).height = 0) ∧
    (((⟨"C", 0, "r", 7, 0, ""⟩ : UnspentOutput).txid,
      (⟨"C", 0, "r", 7, 0, ""⟩ : UnspentOutput).vout) ∉
        (⟨"B", [("D", 0)], [], 0, 0, "", 0, 0,
          TransactionStatus.PENDING_CONFIRMATION, none⟩ : Transaction).inputs ∧
     (∀ v ∈ injectedChangeOutputs witWallet, v.height = 0 ∧
       (walletGetAddresses witWallet false true).contains v.address = true) ∧
     walletGetBalance witWallet =
       ((walletGetUnspentOutputs witWallet true).filter (fun v =>
           decide (v.height > 0 ∨
             (walletGetAddresses witWallet false true).contains v.address =
               true))).foldl (fun a v => a + v.amount) 0) :=
  ⟨by decide, by decide, by decide, rfl,
   getUnspentOutputs_exclusion_outside_injection witWallet
     ⟨"C", 0, "r", 7, 0, ""⟩
     ⟨"B", [("D", 0)], [], 0, 0, "", 0, 0,
       TransactionStatus.PENDING_CONFIRMATION, none⟩
     (by decide) (by decide) (by decide) rfl⟩
